import Mathlib

/-!
# Fozzy — shallow embedding of the post-hoc analysis core

This file embeds, in Lean, the parts of the `fozzy` repository that the
verified claims are about:

* `src/src/tracefile.rs` — the trace codec (`TraceFile`, `write_json`,
  `read_json`);
* `src/src/runtime/memorycap.rs` — the deterministic memory capability
  state machine (`MemoryState`);
* `src/src/cmd/profile_cmd.rs` — the profile reducers
  (`build_profile_timeline`, `build_heap_profile`, `build_latency_profile`,
  `percentile`, `compute_diff`) and the `Shrink` contract decision.

Modelling conventions:

* Rust `u64`/`u32`/`usize` values are `Nat`; where the source uses
  `saturating_add` / `saturating_mul` / `saturating_sub` the embedding
  saturates explicitly at `2^64 - 1` (`Nat.sub` already has the
  `saturating_sub` semantics).
* `f64` computations that the claims touch are embedded over `ℚ`; the
  concrete values exercised by the claims are integers or small exact
  fractions, far from any `f64` rounding boundary.
* `serde_json::Value` is the inductive `Json`; `serde_json::Map` (a
  `BTreeMap` keyed by strings) is an association list — key order never
  matters for the claims proved here, only the key→value mapping.
* `blake3` digests never influence control flow or arithmetic in the
  claims below, so the hashing functions are abstract parameters
  (`HashModel`); theorems quantify over every possible hash function.
-/

namespace Fozzy

/-- The largest `u64` value; Rust saturating arithmetic clips here. -/
def U64MAX : Nat := 2 ^ 64 - 1

/-- `u64::saturating_add`. -/
def satAdd (a b : Nat) : Nat := min (a + b) U64MAX

/-- `u64::saturating_mul`. -/
def satMul (a b : Nat) : Nat := min (a * b) U64MAX

/-! ## JSON values (`serde_json::Value`)

Objects are association lists; `serde_json`'s default `Map` is a
`BTreeMap`, so an object never holds two bindings for one key and lookup
is purely by key. Numbers are embedded as `ℚ` (exact for every integer
the claims touch). -/

inductive Json where
  | null : Json
  | bool (b : Bool) : Json
  | num (q : ℚ) : Json
  | str (s : String) : Json
  | arr (elems : List Json) : Json
  | obj (fields : List (String × Json)) : Json
  deriving Inhabited

/-- Key lookup in a JSON object's field list (`Map::get`). -/
def getField (fields : List (String × Json)) (key : String) : Option Json :=
  match fields with
  | [] => none
  | (k, v) :: rest => if k = key then some v else getField rest key

/-- `Value::as_u64`: a JSON number read as a `u64` — it must be a
non-negative integer below `2^64`. -/
def Json.asU64 : Json → Option Nat
  | Json.num q =>
      if q.den = 1 ∧ 0 ≤ q.num ∧ q.num < (2 : Int) ^ 64 then some q.num.toNat else none
  | _ => none

/-- `Value::as_str`. -/
def Json.asStr : Json → Option String
  | Json.str s => some s
  | _ => none

/-- `str::split(',')` over the underlying characters (structural, so the
kernel can evaluate it on literals). -/
def splitComma : List Char → List Char → List (List Char)
  | [], acc => [acc.reverse]
  | c :: rest, acc =>
      if c = ',' then acc.reverse :: splitComma rest []
      else splitComma rest (c :: acc)

def dropWs (l : List Char) : List Char := l.dropWhile Char.isWhitespace

/-- `str::trim`. -/
def trimChars (l : List Char) : List Char := (dropWs ((dropWs l).reverse)).reverse

/-- Decimal digits to a number: `none` unless non-empty and all ASCII
digits. -/
def parseDigits : List Char → Option Nat
  | [] => none
  | l => l.foldl (fun acc c =>
      match acc with
      | none => none
      | some n => if '0' ≤ c ∧ c ≤ '9' then some (n * 10 + (c.toNat - 48)) else none) (some 0)

/-- `str::parse::<u64>`: all digits, value below `2^64` (Rust also allows
a leading `'+'`, which no input in this development uses). -/
def parseU64Chars (l : List Char) : Option Nat :=
  match parseDigits l with
  | some n => if n < 2 ^ 64 then some n else none
  | none => none

def parseU64 (s : String) : Option Nat := parseU64Chars s.data

/-- `serde_json::Number`'s display form as used when scalar fields are
folded into string tags (`n.to_string()`); integral numbers print as the
plain integer, which is the only case the trace data exercises. -/
def numToString (q : ℚ) : String :=
  if q.den = 1 then toString q.num else toString q

/-- Encode an `Option<String>` the way `serde_json::json!` does. -/
def jsonOfOptStr : Option String → Json
  | some s => Json.str s
  | none => Json.null

/-! ## Stable sorting (`slice::sort_by`)

Rust's `sort_by` is a stable sort; the embedding uses a stable insertion
sort parameterised by a boolean "comes before or at" relation
(`le x y = true` ↔ the comparator does not place `x` strictly after `y`). -/

def insertLe (le : α → α → Bool) (x : α) : List α → List α
  | [] => [x]
  | y :: ys => if le x y then x :: y :: ys else y :: insertLe le x ys

def sortLe (le : α → α → Bool) : List α → List α
  | [] => []
  | x :: xs => insertLe le x (sortLe le xs)

/-- `Ordering` is not `Greater`, i.e. less-or-equal. -/
def ordLe (o : Ordering) : Bool := o != Ordering.gt

/-! ## Memory capability state machine (`src/src/runtime/memorycap.rs`)

`blake3` hashing is abstracted by `HashModel`: `hashHex` stands for
`blake3::hash(label).to_hex().to_string()` and `fragByte seed ops bytes`
stands for byte 0 of `blake3(seed_le8 ∥ ops_le8 ∥ bytes_le8)`.  No claim
below depends on concrete digest values, so every theorem quantifies over
the hash model (or instantiates it arbitrarily for concrete runs). -/

structure HashModel where
  hashHex : String → String
  fragByte : Nat → Nat → Nat → Nat

structure MemoryOptions where
  limit_mb : Option Nat := none
  fail_after_allocs : Option Nat := none
  pressure_wave : Option String := none
  fragmentation_seed : Option Nat := none
  deriving DecidableEq

structure AllocRecord where
  bytes : Nat
  callsite_hash : String
  tag : Option String
  deriving DecidableEq

structure AllocOutcome where
  alloc_id : Option Nat
  failed_reason : Option String
  callsite_hash : String
  deriving DecidableEq

structure MemoryTimelineEntry where
  index : Nat
  time_ms : Nat
  kind : String
  fields : List (String × Json)

structure MemoryGraphEdge where
  from_ : String
  to_ : String
  kind : String
  deriving DecidableEq

structure MemoryGraphNode where
  id : String
  kind : String
  label : String
  deriving DecidableEq

structure MemoryGraph where
  nodes : List MemoryGraphNode
  edges : List MemoryGraphEdge
  deriving DecidableEq

structure MemoryLeak where
  alloc_id : Nat
  bytes : Nat
  callsite_hash : String
  tag : Option String
  deriving DecidableEq

structure MemorySummary where
  alloc_count : Nat
  free_count : Nat
  failed_alloc_count : Nat
  in_use_bytes : Nat
  peak_bytes : Nat
  leaked_bytes : Nat
  leaked_allocs : Nat
  deriving DecidableEq

structure MemoryRunReport where
  schema_version : String
  options : MemoryOptions
  summary : MemorySummary
  leaks : List MemoryLeak
  timeline : List MemoryTimelineEntry
  graph : MemoryGraph

/-- The live-allocation map: a `BTreeMap<u64, AllocRecord>` embedded as an
association list kept in strictly ascending key order. -/
def liveInsert (k : Nat) (v : AllocRecord) : List (Nat × AllocRecord) → List (Nat × AllocRecord)
  | [] => [(k, v)]
  | (k', v') :: rest =>
      if k < k' then (k, v) :: (k', v') :: rest
      else if k = k' then (k, v) :: rest
      else (k', v') :: liveInsert k v rest

/-- `BTreeMap::remove`: the removed record (if present) and the remaining map. -/
def liveRemove (k : Nat) : List (Nat × AllocRecord) → Option (AllocRecord × List (Nat × AllocRecord))
  | [] => none
  | (k', v') :: rest =>
      if k = k' then some (v', rest)
      else match liveRemove k rest with
        | some (v, rest') => some (v, (k', v') :: rest')
        | none => none

/-- `BTreeSet<String>::insert` — content-only model (claims never inspect
the set's internal order; `finalize` sorts the nodes it extracts). -/
def setInsert (s : String) (l : List String) : List String :=
  if s ∈ l then l else l ++ [s]

structure MemoryState where
  options : MemoryOptions
  next_alloc_id : Nat
  alloc_ops : Nat
  in_use_bytes : Nat
  peak_bytes : Nat
  live : List (Nat × AllocRecord)
  timeline : List MemoryTimelineEntry
  graph_nodes : List String
  graph_edges : List MemoryGraphEdge
  free_count : Nat
  failed_alloc_count : Nat
  pressure_wave_multipliers : List Nat
  fragmentation_seed : Nat

/-- `parse_pressure_wave`: split on `','`, trim, keep the entries that
parse as a positive `u64`. -/
def parse_pressure_wave : Option String → List Nat
  | none => []
  | some pattern =>
      ((splitComma pattern.data []).filterMap
        (fun piece => parseU64Chars (trimChars piece))).filter (fun m => 0 < m)

def MemoryState.new (options : MemoryOptions) : MemoryState :=
  { options := options
    next_alloc_id := 1
    alloc_ops := 0
    in_use_bytes := 0
    peak_bytes := 0
    live := []
    timeline := []
    graph_nodes := []
    graph_edges := []
    free_count := 0
    failed_alloc_count := 0
    pressure_wave_multipliers := parse_pressure_wave options.pressure_wave
    fragmentation_seed := options.fragmentation_seed.getD 0 }

/-- `MemoryState::effective_alloc_bytes` — called after `alloc_ops` has
been incremented. -/
def MemoryState.effective_alloc_bytes (hm : HashModel) (s : MemoryState) (requested : Nat) : Nat :=
  let scaled :=
    if s.pressure_wave_multipliers.isEmpty then requested
    else
      let idx := (s.alloc_ops - 1) % s.pressure_wave_multipliers.length
      satMul requested (s.pressure_wave_multipliers.getD idx 0)
  if s.options.fragmentation_seed.isSome then
    let pct := hm.fragByte s.fragmentation_seed s.alloc_ops requested % 31
    satAdd scaled (satMul scaled pct / 100)
  else scaled

/-- `MemoryState::push_timeline`. -/
def MemoryState.push_timeline (s : MemoryState) (time_ms : Nat) (kind : String)
    (fields : List (String × Json)) : MemoryState :=
  { s with timeline := s.timeline ++
      [{ index := s.timeline.length, time_ms := time_ms, kind := kind, fields := fields }] }

/-- `MemoryState::allocate`. -/
def MemoryState.allocate (hm : HashModel) (s : MemoryState) (bytes : Nat) (tag : Option String)
    (callsite : String) (time_ms : Nat) : AllocOutcome × MemoryState :=
  let callsite_hash := hm.hashHex callsite
  let s := { s with alloc_ops := satAdd s.alloc_ops 1 }
  let effective_bytes := s.effective_alloc_bytes hm bytes
  let limitedFail :=
    match s.options.limit_mb with
    | some limit_mb => decide (satAdd s.in_use_bytes effective_bytes > satMul limit_mb (1024 * 1024))
    | none => false
  if limitedFail then
    let s := { s with failed_alloc_count := satAdd s.failed_alloc_count 1 }
    let s := s.push_timeline time_ms "alloc_fail"
      [("bytes", Json.num bytes), ("effectiveBytes", Json.num effective_bytes),
       ("reason", Json.str "limit_mb"), ("callsiteHash", Json.str callsite_hash)]
    ({ alloc_id := none, failed_reason := some "limit_mb", callsite_hash := callsite_hash }, s)
  else if (match s.options.fail_after_allocs with
           | some fail_after => decide (s.alloc_ops > fail_after)
           | none => false) then
    let s := { s with failed_alloc_count := satAdd s.failed_alloc_count 1 }
    let s := s.push_timeline time_ms "alloc_fail"
      [("bytes", Json.num bytes), ("effectiveBytes", Json.num effective_bytes),
       ("reason", Json.str "fail_after_allocs"), ("callsiteHash", Json.str callsite_hash)]
    ({ alloc_id := none, failed_reason := some "fail_after_allocs", callsite_hash := callsite_hash }, s)
  else
    let alloc_id := s.next_alloc_id
    let s := { s with next_alloc_id := satAdd s.next_alloc_id 1 }
    let s := { s with in_use_bytes := satAdd s.in_use_bytes effective_bytes }
    let s := { s with peak_bytes := max s.peak_bytes s.in_use_bytes }
    let record : AllocRecord :=
      { bytes := effective_bytes, callsite_hash := callsite_hash, tag := tag }
    let s := { s with live := liveInsert alloc_id record s.live }
    let s := s.push_timeline time_ms "alloc"
      [("allocId", Json.num alloc_id), ("bytes", Json.num bytes),
       ("effectiveBytes", Json.num effective_bytes), ("inUseBytes", Json.num s.in_use_bytes),
       ("callsiteHash", Json.str callsite_hash), ("tag", jsonOfOptStr tag)]
    let alloc_node := "alloc:" ++ toString alloc_id
    let callsite_node := "callsite:" ++ callsite_hash
    let s := { s with graph_nodes := setInsert callsite_node (setInsert alloc_node s.graph_nodes) }
    let s := { s with graph_edges := s.graph_edges ++
      [{ from_ := callsite_node, to_ := alloc_node, kind := "allocates" }] }
    ({ alloc_id := some alloc_id, failed_reason := none, callsite_hash := callsite_hash }, s)

/-- `MemoryState::free`. -/
def MemoryState.free (s : MemoryState) (alloc_id : Nat) (time_ms : Nat) : Bool × MemoryState :=
  match liveRemove alloc_id s.live with
  | none =>
      (false, s.push_timeline time_ms "free_missing" [("allocId", Json.num alloc_id)])
  | some (rec, live') =>
      let s := { s with live := live' }
      let s := { s with free_count := satAdd s.free_count 1 }
      let s := { s with in_use_bytes := s.in_use_bytes - rec.bytes }
      let s := s.push_timeline time_ms "free"
        [("allocId", Json.num alloc_id), ("bytes", Json.num rec.bytes),
         ("inUseBytes", Json.num s.in_use_bytes)]
      let free_node := "free:" ++ toString alloc_id
      let s := { s with graph_nodes := setInsert free_node s.graph_nodes }
      let s := { s with graph_edges := s.graph_edges ++
        [{ from_ := "alloc:" ++ toString alloc_id, to_ := free_node, kind := "freed_by" }] }
      (true, s)

/-- `MemoryState::checkpoint`. -/
def MemoryState.checkpoint (s : MemoryState) (name : String) (time_ms : Nat) : MemoryState :=
  s.push_timeline time_ms "checkpoint"
    [("name", Json.str name), ("inUseBytes", Json.num s.in_use_bytes),
     ("liveAllocs", Json.num s.live.length)]

/-- The `(kind, label)` classification of a graph node id in `finalize`
(`strip_prefix` on `"alloc:"`, `"free:"`, `"callsite:"`). -/
def nodeOfId (id : String) : MemoryGraphNode :=
  if "alloc:".isPrefixOf id then { id := id, kind := "alloc", label := id.drop 6 }
  else if "free:".isPrefixOf id then { id := id, kind := "free", label := id.drop 5 }
  else if "callsite:".isPrefixOf id then { id := id, kind := "callsite", label := id.drop 9 }
  else { id := id, kind := "node", label := id }

/-- `MemoryState::finalize`. -/
def MemoryState.finalize (s : MemoryState) : MemoryRunReport :=
  let leaks : List MemoryLeak := s.live.map (fun p =>
    { alloc_id := p.1, bytes := p.2.bytes, callsite_hash := p.2.callsite_hash, tag := p.2.tag })
  let summary : MemorySummary :=
    { alloc_count := s.alloc_ops
      free_count := s.free_count
      failed_alloc_count := s.failed_alloc_count
      in_use_bytes := s.in_use_bytes
      peak_bytes := s.peak_bytes
      leaked_bytes := (leaks.map (fun l => l.bytes)).sum
      leaked_allocs := leaks.length }
  let nodes := sortLe (fun a b => ordLe (compare a.id b.id))
    (s.graph_nodes.map nodeOfId)
  { schema_version := "fozzy.memory_report.v1"
    options := s.options
    summary := summary
    leaks := leaks
    timeline := s.timeline
    graph := { nodes := nodes, edges := s.graph_edges } }

/-! ### Operation sequences over the state machine -/

/-- One public operation on the memory capability. -/
inductive MemOp where
  | alloc (bytes : Nat) (tag : Option String) (callsite : String) (time_ms : Nat)
  | free (alloc_id : Nat) (time_ms : Nat)
  | checkpoint (name : String) (time_ms : Nat)

/-- Run a sequence of operations (discarding each call's return value, as
a caller driving the state machine does). -/
def runOps (hm : HashModel) (s : MemoryState) : List MemOp → MemoryState
  | [] => s
  | MemOp.alloc bytes tag callsite t :: rest =>
      runOps hm (s.allocate hm bytes tag callsite t).2 rest
  | MemOp.free id t :: rest => runOps hm (s.free id t).2 rest
  | MemOp.checkpoint name t :: rest => runOps hm (s.checkpoint name t) rest

/-- How many `allocate` calls a sequence of operations makes. -/
def numAllocCalls : List MemOp → Nat
  | [] => 0
  | MemOp.alloc _ _ _ _ :: rest => numAllocCalls rest + 1
  | _ :: rest => numAllocCalls rest

/-- An arbitrary concrete instantiation of the abstract hash model, used
for concrete runs; none of the properties proved at it depend on digest
values. -/
def idHash : HashModel := { hashHex := fun s => s, fragByte := fun _ _ _ => 0 }

/-! ## Trace data model (`src/src/tracefile.rs` and the crate types it
embeds)

`TraceFile` follows the struct in `src/src/tracefile.rs`, plus the
optional `memory` field that `profile_cmd.rs` and `memory_cmd.rs` read
(`trace.memory`) and the spec's data model lists; the snapshot's
`tracefile.rs` predates that field.  `RunSummary`, `RunIdentity`,
`VersionInfo`, `ExitStatus`, `TestCounters` and `Finding` live in crate
modules absent from the snapshot; they are modelled from the spec's data
model and from their uses in `cli_logger.rs`, `memory_cmd.rs` and the
`profile_cmd.rs` tests. -/

inductive RunMode where
  | run | fuzz | explore | replay | shrink
  deriving DecidableEq

inductive ExitStatus where
  | pass | fail | timeout | crash | error
  deriving DecidableEq

structure VersionInfo where
  version : String
  commit : Option String
  deriving DecidableEq

structure RunIdentity where
  run_id : String
  seed : Nat
  trace_path : Option String
  report_path : Option String
  artifacts_dir : Option String
  deriving DecidableEq

structure TestCounters where
  passed : Nat
  failed : Nat
  skipped : Nat
  deriving DecidableEq

structure Finding where
  kind : String
  title : String
  message : String
  deriving DecidableEq

structure RunSummary where
  status : ExitStatus
  mode : RunMode
  identity : RunIdentity
  started_at : String
  finished_at : String
  duration_ms : Nat
  duration_ns : Nat
  tests : Option TestCounters
  memory : Option MemorySummary
  findings : List Finding
  deriving DecidableEq

/-- `Decision` (`src/src/decisions.rs`): tagged with `kind`, snake_case. -/
inductive Decision where
  | randU64 (value : Nat)
  | randBytes (hex : String)
  | timeSleepMs (ms : Nat)
  | timeAdvanceMs (ms : Nat)
  | step (index : Nat) (name : String)
  deriving DecidableEq

/-- `Step` (`src/src/scenario.rs`): tagged with `type`, snake_case. -/
inductive Step where
  | traceEvent (name : String) (fields : List (String × Json))
  | randU64 (key : Option String)
  | assertEqInt (a : Int) (b : Int) (msg : Option String)
  | assertEqStr (a : String) (b : String) (msg : Option String)
  | sleep (duration : String)
  | advance (duration : String)
  | freeze (at_ms : Option Nat)
  | unfreeze
  | setKv (key : String) (value : String)
  | getKvAssert (key : String) (equals : Option String) (is_null : Option Bool)
  | fsWrite (path : String) (data : String)
  | fsReadAssert (path : String) (equals : String)
  | fsSnapshot (name : String)
  | fsRestore (name : String)
  | fail (message : String)
  | panic (message : String)

structure ScenarioV1Steps where
  version : Nat
  name : String
  steps : List Step

/-- `TraceEvent` (`src/src/tracefile.rs`). -/
structure TraceEvent where
  time_ms : Nat
  name : String
  fields : List (String × Json)

structure TraceFile where
  format : String
  version : Nat
  engine : VersionInfo
  mode : RunMode
  scenario_path : Option String
  scenario : Option ScenarioV1Steps
  memory : Option MemoryRunReport
  decisions : List Decision
  events : List TraceEvent
  summary : RunSummary

/-! ## Profile timeline builder (`build_profile_timeline`) -/

inductive ProfileEventKind where
  | spanStart | spanEnd | event | sample | alloc | free | io | net | sched
  deriving DecidableEq

structure ProfileCost where
  duration_ms : Option Nat
  bytes : Option Nat
  count : Option Nat
  deriving DecidableEq

structure ProfileEvent where
  t_virtual : Nat
  t_mono : Option Nat
  kind : ProfileEventKind
  run_id : String
  seed : Nat
  thread : String
  task : Option String
  span_id : String
  parent_span_id : Option String
  tags : List (String × String)
  cost : ProfileCost
  deriving DecidableEq

/-- `map_event_kind`. -/
def map_event_kind (name : String) : ProfileEventKind :=
  if name = "memory_alloc" then ProfileEventKind.alloc
  else if name = "memory_free" then ProfileEventKind.free
  else if name = "http_request" ∨ name = "proc_spawn" then ProfileEventKind.io
  else if name = "net_drop" ∨ name = "net_deliver" then ProfileEventKind.net
  else if name = "deliver" ∨ name = "partition" ∨ name = "heal" ∨ name = "crash"
      ∨ name = "restart" then ProfileEventKind.sched
  else ProfileEventKind.event

/-- Insert-or-replace into the tags map (`BTreeMap::insert`; the content
is what matters, lookups are by key). -/
def tagsUpsert (k v : String) : List (String × String) → List (String × String)
  | [] => [(k, v)]
  | (k', v') :: rest => if k' = k then (k, v) :: rest else (k', v') :: tagsUpsert k v rest

/-- First-match lookup in the tags map. -/
def tagsGet (tags : List (String × String)) (k : String) : Option String :=
  match tags with
  | [] => none
  | (k', v) :: rest => if k' = k then some v else tagsGet rest k

/-- The tag map of one event: the synthetic `name` key plus every scalar
field rendered as a string. -/
def tagsOfFields (name : String) (fields : List (String × Json)) : List (String × String) :=
  fields.foldl (fun acc kv =>
    match kv.2 with
    | Json.str s => tagsUpsert kv.1 s acc
    | Json.num n => tagsUpsert kv.1 (numToString n) acc
    | Json.bool b => tagsUpsert kv.1 (toString b) acc
    | _ => acc) [("name", name)]

/-- One iteration of the `build_profile_timeline` loop: the profile event
for raw event `e` at index `idx`, where `t_next` is the next raw event's
`time_ms` (if any). -/
def mkProfileEvent (run_id : String) (seed : Nat) (idx : Nat) (e : TraceEvent)
    (t_next : Option Nat) : ProfileEvent :=
  { t_virtual := e.time_ms
    t_mono := some idx
    kind := map_event_kind e.name
    run_id := run_id
    seed := seed
    thread := ((getField e.fields "thread").bind Json.asStr).getD "main"
    task := (getField e.fields "task").bind Json.asStr
    span_id := "e-" ++ toString idx
    parent_span_id := if idx > 0 then some ("e-" ++ toString (idx - 1)) else none
    tags := tagsOfFields e.name e.fields
    cost :=
      { duration_ms :=
          match t_next with
          | some nt => if e.time_ms ≤ nt then some (nt - e.time_ms) else none
          | none => none
        bytes := match (getField e.fields "bytes").bind Json.asU64 with
          | some b => some b
          | none => (getField e.fields "payload_size").bind Json.asU64
        count := some 1 } }

def buildEvents (run_id : String) (seed : Nat) : Nat → List TraceEvent → List ProfileEvent
  | _, [] => []
  | idx, e :: rest =>
      mkProfileEvent run_id seed idx e (rest.head?.map (fun n => n.time_ms))
        :: buildEvents run_id seed (idx + 1) rest

/-- `build_profile_timeline`. -/
def build_profile_timeline (trace : TraceFile) : List ProfileEvent :=
  buildEvents trace.summary.identity.run_id trace.summary.identity.seed 0 trace.events

/-! ## CPU reducer (`build_cpu_profile`) — enough for `metric_value`.  The
per-stack aggregation map is a `HashMap` in the source; it is modelled as
an insertion-ordered association map (same content; the subsequent
`sort_by` fixes the order the claims observe). -/

structure FoldedStack where
  stack : String
  weight : Nat
  deriving DecidableEq

def stacksUpsert (k : String) (w : Nat) : List (String × Nat) → List (String × Nat)
  | [] => [(k, w)]
  | (k', w') :: rest =>
      if k' = k then (k, w' + w) :: rest else (k', w') :: stacksUpsert k w rest

/-- The folded-stack comparator: weight descending, stack ascending. -/
def foldedLe (a b : FoldedStack) : Bool :=
  ordLe ((compare b.weight a.weight).then (compare a.stack b.stack))

/-- The folded stacks of `build_cpu_profile` (stack string and summed
weight, sorted by the source comparator); sample weight is
`duration_ms.unwrap_or(1).max(1)`. -/
def cpu_folded_stacks (timeline : List ProfileEvent) : List FoldedStack :=
  let stackMap := timeline.foldl
    (fun m e =>
      stacksUpsert ("fozzy::runtime;" ++ "event::" ++ ((tagsGet e.tags "name").getD ""))
        (max (e.cost.duration_ms.getD 1) 1) m)
    []
  sortLe foldedLe (stackMap.map (fun p => { stack := p.1, weight := p.2 }))

/-! ## Latency reducer (`build_latency_profile`, `percentile`) -/

structure LatencyDistribution where
  count : Nat
  p50_ms : Nat
  p95_ms : Nat
  p99_ms : Nat
  max_ms : Nat
  variance : ℚ
  deriving DecidableEq

structure CriticalPathEdge where
  from_span : String
  to_span : String
  duration_ms : Nat
  reason : String
  deriving DecidableEq

structure ReasonCount where
  reason : String
  count : Nat
  deriving DecidableEq

structure LatencyProfile where
  schema_version : String
  run_id : String
  distribution : LatencyDistribution
  critical_path : List CriticalPathEdge
  wait_reasons : List ReasonCount
  deriving DecidableEq

/-- `f64::round` (half away from zero) on the non-negative values that
`percentile` produces. -/
def rustRound (q : ℚ) : Nat := (Int.floor (q + 1 / 2)).toNat

/-- `percentile`: nearest rank at `round((n − 1) · p)`, clamped to the
last index. -/
def percentile (sorted : List Nat) (p : ℚ) : Nat :=
  if sorted.isEmpty then 0
  else sorted.getD (min (rustRound (((sorted.length : ℚ) - 1) * p)) (sorted.length - 1)) 0

/-- The wait reason attributed to an edge from its successor's kind. -/
def waitReason : ProfileEventKind → String
  | ProfileEventKind.io => "io"
  | ProfileEventKind.sched => "sched"
  | ProfileEventKind.alloc => "heap"
  | ProfileEventKind.free => "heap"
  | ProfileEventKind.net => "payload"
  | ProfileEventKind.sample => "cpu"
  | _ => "other"

def upsertCount (k : String) : List (String × Nat) → List (String × Nat)
  | [] => [(k, 1)]
  | (k', c) :: rest => if k' = k then (k, c + 1) :: rest else (k', c) :: upsertCount k rest

/-- The consecutive pairs of the timeline (`windows(2)`). -/
def consecutivePairs (l : List α) : List (α × α) := l.zip l.tail

/-- The delta list `Δᵢ = tᵢ₊₁ − tᵢ` (`saturating_sub`, as in the source). -/
def latency_deltas (timeline : List ProfileEvent) : List Nat :=
  (consecutivePairs timeline).map (fun p => p.2.t_virtual - p.1.t_virtual)

/-- The critical-path comparator: duration descending, from-span
ascending. -/
def edgeLe (a b : CriticalPathEdge) : Bool :=
  ordLe ((compare b.duration_ms a.duration_ms).then (compare a.from_span b.from_span))

/-- `build_latency_profile`. -/
def build_latency_profile (trace : TraceFile) (timeline : List ProfileEvent) : LatencyProfile :=
  let pairs := consecutivePairs timeline
  let deltas := latency_deltas timeline
  let reasons := pairs.foldl (fun m p => upsertCount (waitReason p.2.kind) m) []
  let critical_path := pairs.map (fun p =>
    { from_span := p.1.span_id
      to_span := p.2.span_id
      duration_ms := p.2.t_virtual - p.1.t_virtual
      reason := waitReason p.2.kind })
  let critical_sorted := sortLe edgeLe critical_path
  let distribution :=
    if deltas.isEmpty then
      { count := 0, p50_ms := 0, p95_ms := 0, p99_ms := 0, max_ms := 0, variance := 0 }
    else
      let sorted := sortLe (fun a b => decide (a ≤ b)) deltas
      let max_ms := sorted.getLast?.getD 0
      let mean : ℚ := (deltas.map (fun v => (v : ℚ))).sum / (deltas.length : ℚ)
      let variance : ℚ :=
        (deltas.map (fun v => ((v : ℚ) - mean) * ((v : ℚ) - mean))).sum / (deltas.length : ℚ)
      { count := deltas.length
        p50_ms := percentile sorted (1 / 2)
        p95_ms := percentile sorted (19 / 20)
        p99_ms := percentile sorted (99 / 100)
        max_ms := max_ms
        variance := variance }
  let wait_reasons := (sortLe (fun a b => ordLe (compare a.1 b.1)) reasons).map
    (fun p => { reason := p.1, count := p.2 })
  { schema_version := "fozzy.profile_latency.v1"
    run_id := trace.summary.identity.run_id
    distribution := distribution
    critical_path := critical_sorted
    wait_reasons := wait_reasons }

/-! ## Heap reducer (`build_heap_profile`).  The live map is a `HashMap`
in the source (arbitrary iteration order); it is modelled as an
insertion-ordered association map.  No claim below depends on an order
the source leaves unspecified. -/

structure HeapCallsite where
  callsite_hash : String
  alloc_count : Nat
  alloc_bytes : Nat
  in_use_bytes : Nat
  deriving DecidableEq

structure HistogramBin where
  bucket : String
  count : Nat
  deriving DecidableEq

structure RetentionSuspect where
  alloc_id : Nat
  callsite_hash : String
  bytes : Nat
  age_ms : Nat
  deriving DecidableEq

structure HeapProfile where
  schema_version : String
  run_id : String
  total_alloc_bytes : Nat
  in_use_bytes : Nat
  alloc_rate_per_sec : ℚ
  hotspots : List HeapCallsite
  lifetime_histogram : List HistogramBin
  retention_suspects : List RetentionSuspect
  deriving DecidableEq

structure LiveAlloc where
  bytes : Nat
  callsite_hash : String
  start : Nat
  end_ : Option Nat
  deriving DecidableEq

def heapMapInsert (k : Nat) (v : LiveAlloc) : List (Nat × LiveAlloc) → List (Nat × LiveAlloc)
  | [] => [(k, v)]
  | (k', v') :: rest =>
      if k' = k then (k, v) :: rest else (k', v') :: heapMapInsert k v rest

def heapMapRemove (k : Nat) : List (Nat × LiveAlloc) → Option (LiveAlloc × List (Nat × LiveAlloc))
  | [] => none
  | (k', v') :: rest =>
      if k = k' then some (v', rest)
      else match heapMapRemove k rest with
        | some (v, rest') => some (v, (k', v') :: rest')
        | none => none

/-- The alloc/free scan of `build_heap_profile`: returns the final live
map and the completed list. -/
def heapScan : List ProfileEvent → List (Nat × LiveAlloc) → List LiveAlloc →
    List (Nat × LiveAlloc) × List LiveAlloc
  | [], live, completed => (live, completed)
  | e :: rest, live, completed =>
      if e.kind = ProfileEventKind.alloc then
        let alloc_id := ((tagsGet e.tags "alloc_id").bind parseU64).getD 0
        let failed := match tagsGet e.tags "failed_reason" with
          | some r => !(r == "") && !(r == "null")
          | none => false
        if failed || (alloc_id == 0) then heapScan rest live completed
        else
          let callsite := (tagsGet e.tags "callsite_hash").getD "unknown"
          let bytes := e.cost.bytes.getD 0
          heapScan rest (heapMapInsert alloc_id
            { bytes := bytes, callsite_hash := callsite, start := e.t_virtual, end_ := none }
            live) completed
      else if e.kind = ProfileEventKind.free then
        let alloc_id := ((tagsGet e.tags "alloc_id").bind parseU64).getD 0
        match heapMapRemove alloc_id live with
        | some (a, live') =>
            heapScan rest live' (completed ++ [{ a with end_ := some e.t_virtual }])
        | none => heapScan rest live completed
      else heapScan rest live completed

def hotspotUpsert (a : LiveAlloc) : List HeapCallsite → List HeapCallsite
  | [] => [{ callsite_hash := a.callsite_hash, alloc_count := 1,
             alloc_bytes := a.bytes,
             in_use_bytes := if a.end_.isNone then a.bytes else 0 }]
  | h :: rest =>
      if h.callsite_hash = a.callsite_hash then
        { h with alloc_count := satAdd h.alloc_count 1
                 alloc_bytes := satAdd h.alloc_bytes a.bytes
                 in_use_bytes :=
                   if a.end_.isNone then satAdd h.in_use_bytes a.bytes
                   else h.in_use_bytes } :: rest
      else h :: hotspotUpsert a rest

def hotspotLe (a b : HeapCallsite) : Bool :=
  ordLe (((compare b.in_use_bytes a.in_use_bytes).then
    (compare b.alloc_bytes a.alloc_bytes)).then (compare a.callsite_hash b.callsite_hash))

def suspectLe (a b : RetentionSuspect) : Bool :=
  ordLe ((compare b.bytes a.bytes).then (compare b.age_ms a.age_ms))

def lifetimeBucket (d : Nat) : String :=
  if d ≤ 1 then "0-1ms" else if d ≤ 10 then "2-10ms"
  else if d ≤ 100 then "11-100ms" else "101ms+"

/-- `build_heap_profile`. -/
def build_heap_profile (trace : TraceFile) (timeline : List ProfileEvent) : HeapProfile :=
  let scanned := heapScan timeline [] []
  let live := scanned.1
  let completed := scanned.2
  let chained := live.map (fun p => p.2) ++ completed
  let total_alloc_bytes := chained.foldl (fun acc a => satAdd acc a.bytes) 0
  let hotspot_list := sortLe hotspotLe (chained.foldl (fun m a => hotspotUpsert a m) [])
  let end_t := (timeline.getLast?.map (fun e => e.t_virtual)).getD 0
  let suspects := sortLe suspectLe (live.map (fun p =>
    { alloc_id := p.1, callsite_hash := p.2.callsite_hash, bytes := p.2.bytes
      age_ms := end_t - p.2.start }))
  let bins := completed.foldl (fun m a =>
    upsertCount (lifetimeBucket ((a.end_.getD a.start) - a.start)) m) []
  let lifetime_histogram := (sortLe (fun a b => ordLe (compare a.1 b.1)) bins).map
    (fun p => { bucket := p.1, count := p.2 })
  let in_use_bytes := live.foldl (fun acc p => satAdd acc p.2.bytes) 0
  let span_s : ℚ := ((max end_t 1 : Nat) : ℚ) / 1000
  let alloc_rate_per_sec : ℚ := (total_alloc_bytes : ℚ) / span_s
  let trace_memory_in_use := (trace.memory.map (fun m => m.summary.in_use_bytes)).getD 0
  { schema_version := "fozzy.profile_heap.v1"
    run_id := trace.summary.identity.run_id
    total_alloc_bytes := total_alloc_bytes
    in_use_bytes := max in_use_bytes trace_memory_in_use
    alloc_rate_per_sec := alloc_rate_per_sec
    hotspots := hotspot_list
    lifetime_histogram := lifetime_histogram
    retention_suspects := suspects }

/-- The spec's stated heap rate formula (`alloc_rate_per_sec =
total_alloc_bytes / max(1, last_event_t_ms/1000)`), written from the
spec's words for comparison against the implementation. -/
def specAllocRate (total_alloc_bytes last_event_t_ms : Nat) : ℚ :=
  (total_alloc_bytes : ℚ) / max 1 ((last_event_t_ms : ℚ) / 1000)

/-! ## Metrics and diff (`build_profile_metrics`, `compute_diff`) -/

structure ProfileMetrics where
  schema_version : String
  run_id : String
  virtual_time_ms : Nat
  host_time_ms : Nat
  cpu_time_ms : Nat
  alloc_bytes : Nat
  in_use_bytes : Nat
  p50_latency_ms : Nat
  p95_latency_ms : Nat
  p99_latency_ms : Nat
  max_latency_ms : Nat
  io_ops : Nat
  sched_ops : Nat
  confidence : Option ℚ
  deriving DecidableEq

structure RegressionFinding where
  domain : String
  metric : String
  left_value : ℚ
  right_value : ℚ
  delta : ℚ
  delta_pct : ℚ
  confidence : ℚ
  deriving DecidableEq

structure ProfileDiff where
  schema_version : String
  left : String
  right : String
  domains : List String
  regressions : List RegressionFinding
  deriving DecidableEq

/-- The fixed metric-pair list per domain. -/
def domainPairs (domain : String) (l r : ProfileMetrics) : List (String × ℚ × ℚ) :=
  if domain = "cpu" then [("cpu_time_ms", (l.cpu_time_ms : ℚ), (r.cpu_time_ms : ℚ))]
  else if domain = "heap" then
    [("alloc_bytes", (l.alloc_bytes : ℚ), (r.alloc_bytes : ℚ)),
     ("in_use_bytes", (l.in_use_bytes : ℚ), (r.in_use_bytes : ℚ))]
  else if domain = "latency" then
    [("p95_latency_ms", (l.p95_latency_ms : ℚ), (r.p95_latency_ms : ℚ)),
     ("p99_latency_ms", (l.p99_latency_ms : ℚ), (r.p99_latency_ms : ℚ)),
     ("max_latency_ms", (l.max_latency_ms : ℚ), (r.max_latency_ms : ℚ))]
  else if domain = "io" then [("io_ops", (l.io_ops : ℚ), (r.io_ops : ℚ))]
  else if domain = "sched" then [("sched_ops", (l.sched_ops : ℚ), (r.sched_ops : ℚ))]
  else []

/-- `delta_pct` (the `lv.abs() < f64::EPSILON` guards are exact zero
tests on the integer-valued metrics being compared). -/
def deltaPct (lv rv : ℚ) : ℚ :=
  if lv = 0 then (if rv = 0 then 0 else 100) else ((rv - lv) / lv) * 100

def mkFinding (domain metric : String) (lv rv : ℚ) : RegressionFinding :=
  { domain := domain, metric := metric, left_value := lv, right_value := rv
    delta := rv - lv, delta_pct := deltaPct lv rv, confidence := 4 / 5 }

/-- The regression comparator: `|delta|` descending, metric ascending
(`partial_cmp` never sees NaN here). -/
def regLe (a b : RegressionFinding) : Bool :=
  if |b.delta| < |a.delta| then true
  else if |a.delta| < |b.delta| then false
  else ordLe (compare a.metric b.metric)

/-- The pre-sort regression list of `compute_diff` (domain iteration
order). -/
def diffRegressionsRaw (domains : List String) (l r : ProfileMetrics) :
    List RegressionFinding :=
  domains.foldl (fun acc domain =>
    acc ++ (domainPairs domain l r).map (fun t => mkFinding domain t.1 t.2.1 t.2.2)) []

/-- `compute_diff`. -/
def compute_diff (left right : String) (domains : List String)
    (l r : ProfileMetrics) : ProfileDiff :=
  { schema_version := "fozzy.profile_diff.v1"
    left := left
    right := right
    domains := domains
    regressions := sortLe regLe (diffRegressionsRaw domains l r) }

/-! ## Metric-preserving shrink (`ProfileCommand::Shrink`) -/

inductive ProfileDirection where
  | increase | decrease
  deriving DecidableEq

inductive ProfileMetric where
  | p99Latency | cpuTime | allocBytes
  deriving DecidableEq

/-- `metric_value`: a fresh timeline + reducer pass; total (the source
returns `Ok` on every branch). -/
def metric_value (metric : ProfileMetric) (trace : TraceFile) : ℚ :=
  let timeline := build_profile_timeline trace
  match metric with
  | ProfileMetric.p99Latency =>
      ((build_latency_profile trace timeline).distribution.p99_ms : ℚ)
  | ProfileMetric.cpuTime =>
      ((cpu_folded_stacks timeline).map (fun f => (f.weight : ℚ))).sum
  | ProfileMetric.allocBytes =>
      ((build_heap_profile trace timeline).total_alloc_bytes : ℚ)

/-- `normalize_metric_value`: collapses `-0.0`; the identity on `ℚ`. -/
def normalize_metric_value (v : ℚ) : ℚ := if v = 0 then 0 else v

/-- `format_metric_value` on the integral values the shrink document
renders in this development (six-decimal fixed with trailing zeros
trimmed prints an integer as its plain decimal form). -/
def format_metric_value (v : ℚ) : String := numToString (normalize_metric_value v)

/-- The structured document the `Shrink` command returns (the JSON
fields the claims observe). -/
structure ShrinkDoc where
  schema_version : String
  status : String
  baseline : ℚ
  after : ℚ
  preserved : Bool
  contract_expected : String
  contract_direction : String
  reason : Option String
  deriving DecidableEq

/-- The contract decision and document assembly at the end of
`ProfileCommand::Shrink`, given the baseline and after metric values. -/
def shrinkDoc (direction : ProfileDirection) (baseline after : ℚ) : ShrinkDoc :=
  let preserved := match direction with
    | ProfileDirection.increase => decide (after ≥ baseline)
    | ProfileDirection.decrease => decide (after ≤ baseline)
  let direction_name := match direction with
    | ProfileDirection.increase => "increase"
    | ProfileDirection.decrease => "decrease"
  let comparator := match direction with
    | ProfileDirection.increase => ">="
    | ProfileDirection.decrease => "<="
  { schema_version := "fozzy.profile_shrink.v1"
    status := if preserved then "ok" else "no_feasible_shrink_found"
    baseline := normalize_metric_value baseline
    after := normalize_metric_value after
    preserved := preserved
    contract_expected := "after " ++ comparator ++ " baseline"
    contract_direction := direction_name
    reason := if preserved then none else some
      ("no feasible shrink found that preserves metric direction: expected after "
        ++ comparator ++ " baseline for direction=" ++ direction_name
        ++ " (baseline=" ++ format_metric_value baseline
        ++ ", after=" ++ format_metric_value after ++ ")") }

/-- The shrink outcome for a resolvable input trace and the trace the
external shrinker returned, on a chosen metric and direction. -/
def shrinkOutcome (metric : ProfileMetric) (direction : ProfileDirection)
    (input shrunk : TraceFile) : ShrinkDoc :=
  shrinkDoc direction (metric_value metric input) (metric_value metric shrunk)

/-- The reversed-diff image of one regression finding: sides swapped,
delta negated, percentage recomputed from the swapped sides. -/
def negSwapFinding (x : RegressionFinding) : RegressionFinding :=
  { x with left_value := x.right_value
           right_value := x.left_value
           delta := -x.delta
           delta_pct := deltaPct x.right_value x.left_value }

/-! ### Concrete fixtures for the claims' scenarios -/

def sampleSummary : RunSummary :=
  { status := ExitStatus.pass
    mode := RunMode.run
    identity := { run_id := "r1", seed := 7, trace_path := none, report_path := none,
                  artifacts_dir := none }
    started_at := "2026-01-01T00:00:00Z"
    finished_at := "2026-01-01T00:00:00Z"
    duration_ms := 10
    duration_ns := 10000000
    tests := none
    memory := none
    findings := [] }

/-- The spec's timeline/latency scenario: events at `t_ms = 1, 4, 8`. -/
def traceC4 : TraceFile :=
  { format := "fozzy-trace", version := 1
    engine := { version := "0.1.0", commit := none }
    mode := RunMode.run
    scenario_path := none, scenario := none, memory := none, decisions := []
    events := [{ time_ms := 1, name := "setup", fields := [] },
               { time_ms := 4, name := "work", fields := [] },
               { time_ms := 8, name := "teardown", fields := [] }]
    summary := sampleSummary }

/-- A trace whose last event ends at `t_ms = 8` after one 100-byte
allocation. -/
def traceC6 : TraceFile :=
  { format := "fozzy-trace", version := 1
    engine := { version := "0.1.0", commit := none }
    mode := RunMode.run
    scenario_path := none, scenario := none, memory := none, decisions := []
    events := [{ time_ms := 1, name := "setup", fields := [] },
               { time_ms := 4, name := "memory_alloc",
                 fields := [("alloc_id", Json.str "1"), ("bytes", Json.num 100)] },
               { time_ms := 8, name := "teardown", fields := [] }]
    summary := sampleSummary }

/-- A variant of the allocation trace whose last event is past one
second of virtual time. -/
def traceC6long : TraceFile :=
  { format := "fozzy-trace", version := 1
    engine := { version := "0.1.0", commit := none }
    mode := RunMode.run
    scenario_path := none, scenario := none, memory := none, decisions := []
    events := [{ time_ms := 1, name := "setup", fields := [] },
               { time_ms := 4, name := "memory_alloc",
                 fields := [("alloc_id", Json.str "1"), ("bytes", Json.num 100)] },
               { time_ms := 2000, name := "teardown", fields := [] }]
    summary := sampleSummary }

/-- A trace violating the non-decreasing `time_ms` invariant. -/
def traceC10 : TraceFile :=
  { format := "fozzy-trace", version := 1
    engine := { version := "0.1.0", commit := none }
    mode := RunMode.run
    scenario_path := none, scenario := none, memory := none, decisions := []
    events := [{ time_ms := 5, name := "late", fields := [] },
               { time_ms := 3, name := "early", fields := [] }]
    summary := sampleSummary }

/-- An events-free trace (every metric scalar is zero). -/
def traceEmpty : TraceFile :=
  { format := "fozzy-trace", version := 1
    engine := { version := "0.1.0", commit := none }
    mode := RunMode.run
    scenario_path := none, scenario := none, memory := none, decisions := []
    events := []
    summary := sampleSummary }

def sampleMetricsA : ProfileMetrics :=
  { schema_version := "fozzy.profile_metrics.v1", run_id := "a"
    virtual_time_ms := 8, host_time_ms := 10, cpu_time_ms := 9
    alloc_bytes := 100, in_use_bytes := 100
    p50_latency_ms := 4, p95_latency_ms := 4, p99_latency_ms := 4, max_latency_ms := 4
    io_ops := 1, sched_ops := 0, confidence := some (4 / 5) }

def sampleMetricsB : ProfileMetrics :=
  { schema_version := "fozzy.profile_metrics.v1", run_id := "b"
    virtual_time_ms := 6, host_time_ms := 10, cpu_time_ms := 5
    alloc_bytes := 40, in_use_bytes := 0
    p50_latency_ms := 2, p95_latency_ms := 3, p99_latency_ms := 3, max_latency_ms := 3
    io_ops := 0, sched_ops := 2, confidence := some (4 / 5) }

/-! ## Trace codec (`TraceFile::write_json` / `TraceFile::read_json`)

`write_json` is `serde_json::to_vec_pretty` over the derived `Serialize`
impls and `read_json` is `serde_json::from_slice` over the derived
`Deserialize` impls; the byte layer (pretty printer / parser) is the
`serde_json` library, which parses the exact tree it printed, so the
codec is embedded at the JSON-tree level: `encodeX` produces the
serialized tree and `decodeX` consumes a tree by key lookup exactly as
the derives do (unknown keys ignored, missing required keys fail,
`Option` fields accept null or a missing key).

Numeric fields: a Rust `u64`/`u32`/`i64`/`usize` field always holds an
in-range value, and its serialized JSON number is therefore always
re-accepted on read; the decoders check that a number is an integer of
the right sign and omit the range check that cannot fail on encoder
output (the model's `Nat`/`Int` never overflow). -/

def decStr : Option Json → Option String
  | some (Json.str s) => some s
  | _ => none

/-- A `u64`/`u32`/`usize` field: a non-negative integer number. -/
def decNat : Option Json → Option Nat
  | some (Json.num q) => if q.den = 1 ∧ 0 ≤ q.num then some q.num.toNat else none
  | _ => none

/-- An `i64` field: an integer number. -/
def decInt : Option Json → Option Int
  | some (Json.num q) => if q.den = 1 then some q.num else none
  | _ => none

/-- An `Option<String>` field: missing or null reads as `None`. -/
def decOptStr : Option Json → Option (Option String)
  | none => some none
  | some Json.null => some none
  | some (Json.str s) => some (some s)
  | _ => none

def decOptNat : Option Json → Option (Option Nat)
  | none => some none
  | some Json.null => some none
  | some (Json.num q) => if q.den = 1 ∧ 0 ≤ q.num then some (some q.num.toNat) else none
  | _ => none

def decOptBool : Option Json → Option (Option Bool)
  | none => some none
  | some Json.null => some none
  | some (Json.bool b) => some (some b)
  | _ => none

/-- A `serde_json::Map` field with `#[serde(default)]`: missing reads as
the empty map. -/
def decFields : Option Json → Option (List (String × Json))
  | none => some []
  | some (Json.obj fs) => some fs
  | _ => none

/-- Decode a JSON array elementwise. -/
def decList (dec : Json → Option α) : Option Json → Option (List α)
  | some (Json.arr elems) => go elems
  | _ => none
where go : List Json → Option (List α)
  | [] => some []
  | j :: rest => do
      let a ← dec j
      let as_ ← go rest
      pure (a :: as_)

def Json.isNull : Json → Bool
  | Json.null => true
  | _ => false

/-- An optional nested document: missing or null reads as `None`. -/
def decOptWith (dec : Json → Option α) : Option Json → Option (Option α)
  | none => some none
  | some j => if j.isNull then some none else (dec j).map some

def encOptStr : Option String → Json
  | some s => Json.str s
  | none => Json.null

def encOptNat : Option Nat → Json
  | some n => Json.num n
  | none => Json.null

def encOptBool : Option Bool → Json
  | some b => Json.bool b
  | none => Json.null

def encOptWith (enc : α → Json) : Option α → Json
  | some a => enc a
  | none => Json.null

def encodeVersionInfo (v : VersionInfo) : Json :=
  Json.obj [("version", Json.str v.version), ("commit", encOptStr v.commit)]

def decodeVersionInfo : Json → Option VersionInfo
  | Json.obj fs => do
      let v ← decStr (getField fs "version")
      let c ← decOptStr (getField fs "commit")
      pure { version := v, commit := c }
  | _ => none

def encodeRunMode : RunMode → Json
  | RunMode.run => Json.str "run"
  | RunMode.fuzz => Json.str "fuzz"
  | RunMode.explore => Json.str "explore"
  | RunMode.replay => Json.str "replay"
  | RunMode.shrink => Json.str "shrink"

def decodeRunMode : Json → Option RunMode
  | Json.str s =>
      if s = "run" then some RunMode.run
      else if s = "fuzz" then some RunMode.fuzz
      else if s = "explore" then some RunMode.explore
      else if s = "replay" then some RunMode.replay
      else if s = "shrink" then some RunMode.shrink
      else none
  | _ => none

def encodeExitStatus : ExitStatus → Json
  | ExitStatus.pass => Json.str "pass"
  | ExitStatus.fail => Json.str "fail"
  | ExitStatus.timeout => Json.str "timeout"
  | ExitStatus.crash => Json.str "crash"
  | ExitStatus.error => Json.str "error"

def decodeExitStatus : Json → Option ExitStatus
  | Json.str s =>
      if s = "pass" then some ExitStatus.pass
      else if s = "fail" then some ExitStatus.fail
      else if s = "timeout" then some ExitStatus.timeout
      else if s = "crash" then some ExitStatus.crash
      else if s = "error" then some ExitStatus.error
      else none
  | _ => none

def encodeRunIdentity (x : RunIdentity) : Json :=
  Json.obj [("run_id", Json.str x.run_id), ("seed", Json.num x.seed),
    ("trace_path", encOptStr x.trace_path), ("report_path", encOptStr x.report_path),
    ("artifacts_dir", encOptStr x.artifacts_dir)]

def decodeRunIdentity : Json → Option RunIdentity
  | Json.obj fs => do
      let run_id ← decStr (getField fs "run_id")
      let seed ← decNat (getField fs "seed")
      let trace_path ← decOptStr (getField fs "trace_path")
      let report_path ← decOptStr (getField fs "report_path")
      let artifacts_dir ← decOptStr (getField fs "artifacts_dir")
      pure { run_id := run_id, seed := seed, trace_path := trace_path,
             report_path := report_path, artifacts_dir := artifacts_dir }
  | _ => none

def encodeTestCounters (x : TestCounters) : Json :=
  Json.obj [("passed", Json.num x.passed), ("failed", Json.num x.failed),
    ("skipped", Json.num x.skipped)]

def decodeTestCounters : Json → Option TestCounters
  | Json.obj fs => do
      let p ← decNat (getField fs "passed")
      let f ← decNat (getField fs "failed")
      let s ← decNat (getField fs "skipped")
      pure { passed := p, failed := f, skipped := s }
  | _ => none

def encodeFinding (x : Finding) : Json :=
  Json.obj [("kind", Json.str x.kind), ("title", Json.str x.title),
    ("message", Json.str x.message)]

def decodeFinding : Json → Option Finding
  | Json.obj fs => do
      let k ← decStr (getField fs "kind")
      let t ← decStr (getField fs "title")
      let m ← decStr (getField fs "message")
      pure { kind := k, title := t, message := m }
  | _ => none

def encodeMemorySummary (x : MemorySummary) : Json :=
  Json.obj [("alloc_count", Json.num x.alloc_count), ("free_count", Json.num x.free_count),
    ("failed_alloc_count", Json.num x.failed_alloc_count),
    ("in_use_bytes", Json.num x.in_use_bytes), ("peak_bytes", Json.num x.peak_bytes),
    ("leaked_bytes", Json.num x.leaked_bytes), ("leaked_allocs", Json.num x.leaked_allocs)]

def decodeMemorySummary : Json → Option MemorySummary
  | Json.obj fs => do
      let ac ← decNat (getField fs "alloc_count")
      let fc ← decNat (getField fs "free_count")
      let fac ← decNat (getField fs "failed_alloc_count")
      let iub ← decNat (getField fs "in_use_bytes")
      let pb ← decNat (getField fs "peak_bytes")
      let lb ← decNat (getField fs "leaked_bytes")
      let la ← decNat (getField fs "leaked_allocs")
      pure { alloc_count := ac, free_count := fc, failed_alloc_count := fac,
             in_use_bytes := iub, peak_bytes := pb, leaked_bytes := lb,
             leaked_allocs := la }
  | _ => none

def encodeRunSummary (x : RunSummary) : Json :=
  Json.obj [("status", encodeExitStatus x.status), ("mode", encodeRunMode x.mode),
    ("identity", encodeRunIdentity x.identity), ("started_at", Json.str x.started_at),
    ("finished_at", Json.str x.finished_at), ("duration_ms", Json.num x.duration_ms),
    ("duration_ns", Json.num x.duration_ns),
    ("tests", encOptWith encodeTestCounters x.tests),
    ("memory", encOptWith encodeMemorySummary x.memory),
    ("findings", Json.arr (x.findings.map encodeFinding))]

def decodeRunSummary : Json → Option RunSummary
  | Json.obj fs => do
      let status ← (getField fs "status").bind decodeExitStatus
      let mode ← (getField fs "mode").bind decodeRunMode
      let identity ← (getField fs "identity").bind decodeRunIdentity
      let sa ← decStr (getField fs "started_at")
      let fa ← decStr (getField fs "finished_at")
      let dms ← decNat (getField fs "duration_ms")
      let dns ← decNat (getField fs "duration_ns")
      let tests ← decOptWith decodeTestCounters (getField fs "tests")
      let memory ← decOptWith decodeMemorySummary (getField fs "memory")
      let findings ← decList decodeFinding (getField fs "findings")
      pure { status := status, mode := mode, identity := identity, started_at := sa,
             finished_at := fa, duration_ms := dms, duration_ns := dns,
             tests := tests, memory := memory, findings := findings }
  | _ => none

def encodeDecision : Decision → Json
  | Decision.randU64 v => Json.obj [("kind", Json.str "rand_u64"), ("value", Json.num v)]
  | Decision.randBytes h => Json.obj [("kind", Json.str "rand_bytes"), ("hex", Json.str h)]
  | Decision.timeSleepMs ms => Json.obj [("kind", Json.str "time_sleep_ms"), ("ms", Json.num ms)]
  | Decision.timeAdvanceMs ms =>
      Json.obj [("kind", Json.str "time_advance_ms"), ("ms", Json.num ms)]
  | Decision.step i n =>
      Json.obj [("kind", Json.str "step"), ("index", Json.num i), ("name", Json.str n)]

def decodeDecision : Json → Option Decision
  | Json.obj fs => do
      let kind ← decStr (getField fs "kind")
      if kind = "rand_u64" then do
        let v ← decNat (getField fs "value")
        pure (Decision.randU64 v)
      else if kind = "rand_bytes" then do
        let h ← decStr (getField fs "hex")
        pure (Decision.randBytes h)
      else if kind = "time_sleep_ms" then do
        let ms ← decNat (getField fs "ms")
        pure (Decision.timeSleepMs ms)
      else if kind = "time_advance_ms" then do
        let ms ← decNat (getField fs "ms")
        pure (Decision.timeAdvanceMs ms)
      else if kind = "step" then do
        let i ← decNat (getField fs "index")
        let n ← decStr (getField fs "name")
        pure (Decision.step i n)
      else none
  | _ => none

def encodeStep : Step → Json
  | Step.traceEvent n f =>
      Json.obj [("type", Json.str "trace_event"), ("name", Json.str n), ("fields", Json.obj f)]
  | Step.randU64 k => Json.obj [("type", Json.str "rand_u64"), ("key", encOptStr k)]
  | Step.assertEqInt a b m =>
      Json.obj [("type", Json.str "assert_eq_int"), ("a", Json.num a), ("b", Json.num b),
        ("msg", encOptStr m)]
  | Step.assertEqStr a b m =>
      Json.obj [("type", Json.str "assert_eq_str"), ("a", Json.str a), ("b", Json.str b),
        ("msg", encOptStr m)]
  | Step.sleep d => Json.obj [("type", Json.str "sleep"), ("duration", Json.str d)]
  | Step.advance d => Json.obj [("type", Json.str "advance"), ("duration", Json.str d)]
  | Step.freeze a => Json.obj [("type", Json.str "freeze"), ("at_ms", encOptNat a)]
  | Step.unfreeze => Json.obj [("type", Json.str "unfreeze")]
  | Step.setKv k v =>
      Json.obj [("type", Json.str "set_kv"), ("key", Json.str k), ("value", Json.str v)]
  | Step.getKvAssert k e n =>
      Json.obj [("type", Json.str "get_kv_assert"), ("key", Json.str k),
        ("equals", encOptStr e), ("is_null", encOptBool n)]
  | Step.fsWrite p d =>
      Json.obj [("type", Json.str "fs_write"), ("path", Json.str p), ("data", Json.str d)]
  | Step.fsReadAssert p e =>
      Json.obj [("type", Json.str "fs_read_assert"), ("path", Json.str p),
        ("equals", Json.str e)]
  | Step.fsSnapshot n => Json.obj [("type", Json.str "fs_snapshot"), ("name", Json.str n)]
  | Step.fsRestore n => Json.obj [("type", Json.str "fs_restore"), ("name", Json.str n)]
  | Step.fail m => Json.obj [("type", Json.str "fail"), ("message", Json.str m)]
  | Step.panic m => Json.obj [("type", Json.str "panic"), ("message", Json.str m)]

def decodeStep : Json → Option Step
  | Json.obj fs => do
      let ty ← decStr (getField fs "type")
      if ty = "trace_event" then do
        let n ← decStr (getField fs "name")
        let f ← decFields (getField fs "fields")
        pure (Step.traceEvent n f)
      else if ty = "rand_u64" then do
        let k ← decOptStr (getField fs "key")
        pure (Step.randU64 k)
      else if ty = "assert_eq_int" then do
        let a ← decInt (getField fs "a")
        let b ← decInt (getField fs "b")
        let m ← decOptStr (getField fs "msg")
        pure (Step.assertEqInt a b m)
      else if ty = "assert_eq_str" then do
        let a ← decStr (getField fs "a")
        let b ← decStr (getField fs "b")
        let m ← decOptStr (getField fs "msg")
        pure (Step.assertEqStr a b m)
      else if ty = "sleep" then do
        let d ← decStr (getField fs "duration")
        pure (Step.sleep d)
      else if ty = "advance" then do
        let d ← decStr (getField fs "duration")
        pure (Step.advance d)
      else if ty = "freeze" then do
        let a ← decOptNat (getField fs "at_ms")
        pure (Step.freeze a)
      else if ty = "unfreeze" then pure Step.unfreeze
      else if ty = "set_kv" then do
        let k ← decStr (getField fs "key")
        let v ← decStr (getField fs "value")
        pure (Step.setKv k v)
      else if ty = "get_kv_assert" then do
        let k ← decStr (getField fs "key")
        let e ← decOptStr (getField fs "equals")
        let n ← decOptBool (getField fs "is_null")
        pure (Step.getKvAssert k e n)
      else if ty = "fs_write" then do
        let p ← decStr (getField fs "path")
        let d ← decStr (getField fs "data")
        pure (Step.fsWrite p d)
      else if ty = "fs_read_assert" then do
        let p ← decStr (getField fs "path")
        let e ← decStr (getField fs "equals")
        pure (Step.fsReadAssert p e)
      else if ty = "fs_snapshot" then do
        let n ← decStr (getField fs "name")
        pure (Step.fsSnapshot n)
      else if ty = "fs_restore" then do
        let n ← decStr (getField fs "name")
        pure (Step.fsRestore n)
      else if ty = "fail" then do
        let m ← decStr (getField fs "message")
        pure (Step.fail m)
      else if ty = "panic" then do
        let m ← decStr (getField fs "message")
        pure (Step.panic m)
      else none
  | _ => none

def encodeScenarioV1Steps (x : ScenarioV1Steps) : Json :=
  Json.obj [("version", Json.num x.version), ("name", Json.str x.name),
    ("steps", Json.arr (x.steps.map encodeStep))]

def decodeScenarioV1Steps : Json → Option ScenarioV1Steps
  | Json.obj fs => do
      let v ← decNat (getField fs "version")
      let n ← decStr (getField fs "name")
      let s ← decList decodeStep (getField fs "steps")
      pure { version := v, name := n, steps := s }
  | _ => none

def encodeTraceEvent (x : TraceEvent) : Json :=
  Json.obj [("time_ms", Json.num x.time_ms), ("name", Json.str x.name),
    ("fields", Json.obj x.fields)]

def decodeTraceEvent : Json → Option TraceEvent
  | Json.obj fs => do
      let t ← decNat (getField fs "time_ms")
      let n ← decStr (getField fs "name")
      let f ← decFields (getField fs "fields")
      pure { time_ms := t, name := n, fields := f }
  | _ => none

def encodeMemoryOptions (x : MemoryOptions) : Json :=
  Json.obj [("limit_mb", encOptNat x.limit_mb),
    ("fail_after_allocs", encOptNat x.fail_after_allocs),
    ("pressure_wave", encOptStr x.pressure_wave),
    ("fragmentation_seed", encOptNat x.fragmentation_seed)]

def decodeMemoryOptions : Json → Option MemoryOptions
  | Json.obj fs => do
      let l ← decOptNat (getField fs "limit_mb")
      let f ← decOptNat (getField fs "fail_after_allocs")
      let p ← decOptStr (getField fs "pressure_wave")
      let g ← decOptNat (getField fs "fragmentation_seed")
      pure { limit_mb := l, fail_after_allocs := f, pressure_wave := p,
             fragmentation_seed := g }
  | _ => none

def encodeMemoryLeak (x : MemoryLeak) : Json :=
  Json.obj [("alloc_id", Json.num x.alloc_id), ("bytes", Json.num x.bytes),
    ("callsite_hash", Json.str x.callsite_hash), ("tag", encOptStr x.tag)]

def decodeMemoryLeak : Json → Option MemoryLeak
  | Json.obj fs => do
      let a ← decNat (getField fs "alloc_id")
      let b ← decNat (getField fs "bytes")
      let c ← decStr (getField fs "callsite_hash")
      let t ← decOptStr (getField fs "tag")
      pure { alloc_id := a, bytes := b, callsite_hash := c, tag := t }
  | _ => none

def encodeMemoryTimelineEntry (x : MemoryTimelineEntry) : Json :=
  Json.obj [("index", Json.num x.index), ("time_ms", Json.num x.time_ms),
    ("kind", Json.str x.kind), ("fields", Json.obj x.fields)]

def decodeMemoryTimelineEntry : Json → Option MemoryTimelineEntry
  | Json.obj fs => do
      let i ← decNat (getField fs "index")
      let t ← decNat (getField fs "time_ms")
      let k ← decStr (getField fs "kind")
      let f ← decFields (getField fs "fields")
      pure { index := i, time_ms := t, kind := k, fields := f }
  | _ => none

def encodeMemoryGraphNode (x : MemoryGraphNode) : Json :=
  Json.obj [("id", Json.str x.id), ("kind", Json.str x.kind), ("label", Json.str x.label)]

def decodeMemoryGraphNode : Json → Option MemoryGraphNode
  | Json.obj fs => do
      let i ← decStr (getField fs "id")
      let k ← decStr (getField fs "kind")
      let l ← decStr (getField fs "label")
      pure { id := i, kind := k, label := l }
  | _ => none

def encodeMemoryGraphEdge (x : MemoryGraphEdge) : Json :=
  Json.obj [("from", Json.str x.from_), ("to", Json.str x.to_), ("kind", Json.str x.kind)]

def decodeMemoryGraphEdge : Json → Option MemoryGraphEdge
  | Json.obj fs => do
      let f ← decStr (getField fs "from")
      let t ← decStr (getField fs "to")
      let k ← decStr (getField fs "kind")
      pure { from_ := f, to_ := t, kind := k }
  | _ => none

def encodeMemoryGraph (x : MemoryGraph) : Json :=
  Json.obj [("nodes", Json.arr (x.nodes.map encodeMemoryGraphNode)),
    ("edges", Json.arr (x.edges.map encodeMemoryGraphEdge))]

def decodeMemoryGraph : Json → Option MemoryGraph
  | Json.obj fs => do
      let n ← decList decodeMemoryGraphNode (getField fs "nodes")
      let e ← decList decodeMemoryGraphEdge (getField fs "edges")
      pure { nodes := n, edges := e }
  | _ => none

def encodeMemoryRunReport (x : MemoryRunReport) : Json :=
  Json.obj [("schemaVersion", Json.str x.schema_version),
    ("options", encodeMemoryOptions x.options),
    ("summary", encodeMemorySummary x.summary),
    ("leaks", Json.arr (x.leaks.map encodeMemoryLeak)),
    ("timeline", Json.arr (x.timeline.map encodeMemoryTimelineEntry)),
    ("graph", encodeMemoryGraph x.graph)]

def decodeMemoryRunReport : Json → Option MemoryRunReport
  | Json.obj fs => do
      let sv ← decStr (getField fs "schemaVersion")
      let o ← (getField fs "options").bind decodeMemoryOptions
      let s ← (getField fs "summary").bind decodeMemorySummary
      let l ← decList decodeMemoryLeak (getField fs "leaks")
      let t ← decList decodeMemoryTimelineEntry (getField fs "timeline")
      let g ← (getField fs "graph").bind decodeMemoryGraph
      pure { schema_version := sv, options := o, summary := s, leaks := l,
             timeline := t, graph := g }
  | _ => none

/-- The serialized tree of a `TraceFile` (`write_json` up to the pretty
printer); top-level keys in declaration order. -/
def encodeTraceFile (x : TraceFile) : Json :=
  Json.obj [("format", Json.str x.format), ("version", Json.num x.version),
    ("engine", encodeVersionInfo x.engine), ("mode", encodeRunMode x.mode),
    ("scenario_path", encOptStr x.scenario_path),
    ("scenario", encOptWith encodeScenarioV1Steps x.scenario),
    ("memory", encOptWith encodeMemoryRunReport x.memory),
    ("decisions", Json.arr (x.decisions.map encodeDecision)),
    ("events", Json.arr (x.events.map encodeTraceEvent)),
    ("summary", encodeRunSummary x.summary)]

/-- `read_json` up to the parser: deserialize a `TraceFile` from its
JSON tree, by key.  Note: no field is checked beyond its own type — in
particular `version` is read as a plain unsigned integer with no
comparison against the supported version. -/
def decodeTraceFile : Json → Option TraceFile
  | Json.obj fs => do
      let fm ← decStr (getField fs "format")
      let v ← decNat (getField fs "version")
      let e ← (getField fs "engine").bind decodeVersionInfo
      let m ← (getField fs "mode").bind decodeRunMode
      let sp ← decOptStr (getField fs "scenario_path")
      let sc ← decOptWith decodeScenarioV1Steps (getField fs "scenario")
      let mem ← decOptWith decodeMemoryRunReport (getField fs "memory")
      let d ← decList decodeDecision (getField fs "decisions")
      let ev ← decList decodeTraceEvent (getField fs "events")
      let su ← (getField fs "summary").bind decodeRunSummary
      pure { format := fm, version := v, engine := e, mode := m, scenario_path := sp,
             scenario := sc, memory := mem, decisions := d, events := ev, summary := su }
  | _ => none

/-- `TraceFile::write_json`, at the JSON-tree level. -/
def TraceFile.write_json (t : TraceFile) : Json := encodeTraceFile t

/-- `TraceFile::read_json`, at the JSON-tree level (`none` is the error
case). -/
def TraceFile.read_json (doc : Json) : Option TraceFile := decodeTraceFile doc

/-- A complete trace document whose `version` field is `2`. -/
def docVersion2 : Json :=
  Json.obj [("format", Json.str "fozzy-trace"), ("version", Json.num 2),
    ("engine", Json.obj [("version", Json.str "0.1.0"), ("commit", Json.null)]),
    ("mode", Json.str "run"),
    ("decisions", Json.arr []),
    ("events", Json.arr []),
    ("summary", Json.obj [("status", Json.str "pass"), ("mode", Json.str "run"),
      ("identity", Json.obj [("run_id", Json.str "r1"), ("seed", Json.num 7)]),
      ("started_at", Json.str "2026-01-01T00:00:00Z"),
      ("finished_at", Json.str "2026-01-01T00:00:00Z"),
      ("duration_ms", Json.num 10), ("duration_ns", Json.num 0),
      ("tests", Json.null), ("memory", Json.null), ("findings", Json.arr [])])]

/-- The `TraceFile` that `read_json` produces from `docVersion2`. -/
def traceVersion2 : TraceFile :=
  { format := "fozzy-trace", version := 2
    engine := { version := "0.1.0", commit := none }
    mode := RunMode.run
    scenario_path := none, scenario := none, memory := none, decisions := []
    events := []
    summary :=
      { status := ExitStatus.pass
        mode := RunMode.run
        identity := { run_id := "r1", seed := 7, trace_path := none, report_path := none,
                      artifacts_dir := none }
        started_at := "2026-01-01T00:00:00Z"
        finished_at := "2026-01-01T00:00:00Z"
        duration_ms := 10
        duration_ns := 0
        tests := none
        memory := none
        findings := [] } }

/-! ### Facts about the live-map association list -/

theorem liveInsert_length_of_not_mem {k : Nat} {v : AllocRecord}
    {l : List (Nat × AllocRecord)} (h : ∀ p ∈ l, p.1 ≠ k) :
    (liveInsert k v l).length = l.length + 1 := by
  induction l with
  | nil => rfl
  | cons hd tl ih =>
      have hhd : hd.1 ≠ k := h hd (by simp)
      rw [liveInsert]
      rcases lt_or_ge k hd.1 with hlt | hge
      · simp [hlt]
      · have hne : ¬ k < hd.1 := not_lt.mpr hge
        have hkne : ¬ k = hd.1 := fun hc => hhd hc.symm
        simp only [hne, if_false, hkne, List.length_cons]
        rw [ih (fun p hp => h p (by simp [hp]))]

theorem liveRemove_eq_some {k : Nat} {l : List (Nat × AllocRecord)}
    {v : AllocRecord} {l' : List (Nat × AllocRecord)}
    (h : liveRemove k l = some (v, l')) :
    l'.length + 1 = l.length ∧ ∀ p ∈ l', p ∈ l := by
  induction l generalizing v l' with
  | nil => simp [liveRemove] at h
  | cons hd tl ih =>
      obtain ⟨k', v'⟩ := hd
      rw [liveRemove] at h
      by_cases hk : k = k'
      · simp only [hk, if_true, Option.some.injEq, Prod.mk.injEq] at h
        obtain ⟨-, rfl⟩ := h
        exact ⟨rfl, fun p hp => by simp [hp]⟩
      · simp only [hk, if_false] at h
        cases hrec : liveRemove k tl with
        | none => rw [hrec] at h; exact absurd h (by simp)
        | some pr =>
            obtain ⟨v0, rest'⟩ := pr
            rw [hrec] at h
            simp only [Option.some.injEq, Prod.mk.injEq] at h
            obtain ⟨rfl, rfl⟩ := h
            have h' := ih hrec
            refine ⟨by simp [← h'.1], ?_⟩
            intro p hp
            rcases List.mem_cons.mp hp with rfl | hp'
            · simp
            · exact List.mem_cons_of_mem _ (h'.2 p hp')

/-! ### Projection lemmas for the state operations -/

theorem push_timeline_proj (s : MemoryState) (t : Nat) (k : String) (f : List (String × Json)) :
    (s.push_timeline t k f).options = s.options ∧
    (s.push_timeline t k f).alloc_ops = s.alloc_ops ∧
    (s.push_timeline t k f).failed_alloc_count = s.failed_alloc_count ∧
    (s.push_timeline t k f).free_count = s.free_count ∧
    (s.push_timeline t k f).live = s.live ∧
    (s.push_timeline t k f).next_alloc_id = s.next_alloc_id ∧
    (s.push_timeline t k f).in_use_bytes = s.in_use_bytes ∧
    (s.push_timeline t k f).peak_bytes = s.peak_bytes := by
  refine ⟨rfl, rfl, rfl, rfl, rfl, rfl, rfl, rfl⟩

/-- Case analysis on `MemoryState::allocate`: either the call fails
(limit or fail-after), touching only `alloc_ops`, `failed_alloc_count`
and the timeline, or it succeeds and installs a fresh record at
`next_alloc_id`. -/
theorem allocate_proj (hm : HashModel) (s : MemoryState) (b : Nat) (tag : Option String)
    (cs : String) (t : Nat) (s' : MemoryState)
    (hs' : (s.allocate hm b tag cs t).2 = s') :
    s'.options = s.options ∧
    s'.pressure_wave_multipliers = s.pressure_wave_multipliers ∧
    s'.fragmentation_seed = s.fragmentation_seed ∧
    s'.alloc_ops = satAdd s.alloc_ops 1 ∧
    ((s'.failed_alloc_count = satAdd s.failed_alloc_count 1 ∧
      s'.free_count = s.free_count ∧
      s'.live = s.live ∧
      s'.next_alloc_id = s.next_alloc_id ∧
      s'.in_use_bytes = s.in_use_bytes ∧
      s'.peak_bytes = s.peak_bytes) ∨
     (∃ eff : Nat,
      s'.failed_alloc_count = s.failed_alloc_count ∧
      s'.free_count = s.free_count ∧
      s'.next_alloc_id = satAdd s.next_alloc_id 1 ∧
      s'.live = liveInsert s.next_alloc_id
        ({ bytes := eff, callsite_hash := hm.hashHex cs, tag := tag }) s.live ∧
      s'.in_use_bytes = satAdd s.in_use_bytes eff ∧
      s'.peak_bytes = max s.peak_bytes (satAdd s.in_use_bytes eff))) := by
  subst hs'
  unfold MemoryState.allocate
  dsimp only
  split
  · exact ⟨rfl, rfl, rfl, rfl, Or.inl ⟨rfl, rfl, rfl, rfl, rfl, rfl⟩⟩
  · split
    · exact ⟨rfl, rfl, rfl, rfl, Or.inl ⟨rfl, rfl, rfl, rfl, rfl, rfl⟩⟩
    · exact ⟨rfl, rfl, rfl, rfl, Or.inr ⟨_, rfl, rfl, rfl, rfl, rfl, rfl⟩⟩

/-- Case analysis on `MemoryState::free`: a missing id touches only the
timeline; otherwise one live record is removed and accounted. -/
theorem free_proj (s : MemoryState) (id t : Nat) (s' : MemoryState)
    (hs' : (s.free id t).2 = s') :
    s'.options = s.options ∧
    s'.pressure_wave_multipliers = s.pressure_wave_multipliers ∧
    s'.fragmentation_seed = s.fragmentation_seed ∧
    s'.alloc_ops = s.alloc_ops ∧
    s'.failed_alloc_count = s.failed_alloc_count ∧
    s'.next_alloc_id = s.next_alloc_id ∧
    s'.peak_bytes = s.peak_bytes ∧
    ((s'.free_count = s.free_count ∧ s'.live = s.live ∧
      s'.in_use_bytes = s.in_use_bytes ∧ liveRemove id s.live = none) ∨
     (∃ rec live', liveRemove id s.live = some (rec, live') ∧
      s'.live = live' ∧ s'.free_count = satAdd s.free_count 1 ∧
      s'.in_use_bytes = s.in_use_bytes - rec.bytes)) := by
  subst hs'
  unfold MemoryState.free
  dsimp only
  cases hrem : liveRemove id s.live with
  | none => exact ⟨rfl, rfl, rfl, rfl, rfl, rfl, rfl, Or.inl ⟨rfl, rfl, rfl, rfl⟩⟩
  | some pr =>
      obtain ⟨rec, live'⟩ := pr
      exact ⟨rfl, rfl, rfl, rfl, rfl, rfl, rfl, Or.inr ⟨rec, live', rfl, rfl, rfl, rfl⟩⟩

theorem checkpoint_proj (s : MemoryState) (n : String) (t : Nat) (s' : MemoryState)
    (hs' : s.checkpoint n t = s') :
    s'.options = s.options ∧
    s'.pressure_wave_multipliers = s.pressure_wave_multipliers ∧
    s'.fragmentation_seed = s.fragmentation_seed ∧
    s'.alloc_ops = s.alloc_ops ∧
    s'.failed_alloc_count = s.failed_alloc_count ∧
    s'.free_count = s.free_count ∧
    s'.live = s.live ∧
    s'.next_alloc_id = s.next_alloc_id ∧
    s'.in_use_bytes = s.in_use_bytes ∧
    s'.peak_bytes = s.peak_bytes := by
  subst hs'
  refine ⟨rfl, rfl, rfl, rfl, rfl, rfl, rfl, rfl, rfl, rfl⟩

theorem mem_liveInsert {k : Nat} {v : AllocRecord} {l : List (Nat × AllocRecord)}
    {p : Nat × AllocRecord} (hp : p ∈ liveInsert k v l) : p = (k, v) ∨ p ∈ l := by
  induction l with
  | nil => simpa [liveInsert] using hp
  | cons hd tl ih =>
      rw [liveInsert] at hp
      split at hp
      · rcases List.mem_cons.mp hp with rfl | h'
        · exact Or.inl rfl
        · exact Or.inr h'
      · split at hp
        · rcases List.mem_cons.mp hp with rfl | h'
          · exact Or.inl rfl
          · exact Or.inr (List.mem_cons_of_mem _ h')
        · rcases List.mem_cons.mp hp with rfl | h'
          · exact Or.inr (List.mem_cons_self _ _)
          · rcases ih h' with h'' | h''
            · exact Or.inl h''
            · exact Or.inr (List.mem_cons_of_mem _ h'')

/-- `in_use_bytes ≤ peak_bytes` is preserved by every operation. -/
theorem runOps_inuse_le_peak (hm : HashModel) (ops : List MemOp) :
    ∀ s : MemoryState, s.in_use_bytes ≤ s.peak_bytes →
      (runOps hm s ops).in_use_bytes ≤ (runOps hm s ops).peak_bytes := by
  induction ops with
  | nil => intro s h; exact h
  | cons op rest ih =>
      intro s h
      cases op with
      | alloc b tag cs t =>
          rw [runOps]
          apply ih
          obtain ⟨-, -, -, -, hcase⟩ := allocate_proj hm s b tag cs t _ rfl
          rcases hcase with ⟨-, -, -, -, hin, hpk⟩ | ⟨eff, -, -, -, -, hin, hpk⟩
          · rw [hin, hpk]; exact h
          · rw [hin, hpk]; exact le_max_right _ _
      | free id t =>
          rw [runOps]
          apply ih
          obtain ⟨-, -, -, -, -, -, hpk, hcase⟩ := free_proj s id t _ rfl
          rcases hcase with ⟨-, -, hin, -⟩ | ⟨rec, live', -, -, -, hin⟩
          · rw [hin, hpk]; exact h
          · rw [hin, hpk]; exact le_trans (Nat.sub_le _ _) h
      | checkpoint n t =>
          rw [runOps]
          apply ih
          obtain ⟨-, -, -, -, -, -, -, -, hin, hpk⟩ := checkpoint_proj s n t _ rfl
          rw [hin, hpk]; exact h

/-- The counting invariant behind the implicit accounting identity:
every allocate call so far either failed, was freed, or is live; fresh
ids sit above every live key. -/
def MemInv (s : MemoryState) : Prop :=
  s.failed_alloc_count + s.free_count + s.live.length = s.alloc_ops ∧
  s.next_alloc_id = 1 + s.free_count + s.live.length ∧
  ∀ p ∈ s.live, p.1 < s.next_alloc_id

theorem satAdd_one_eq {a : Nat} (h : a < U64MAX) : satAdd a 1 = a + 1 := by
  simp only [satAdd]; omega

theorem runOps_meminv (hm : HashModel) (ops : List MemOp) :
    ∀ s : MemoryState, MemInv s → s.alloc_ops + numAllocCalls ops < U64MAX →
      MemInv (runOps hm s ops) := by
  induction ops with
  | nil => intro s h _; exact h
  | cons op rest ih =>
      intro s hinv hbound
      obtain ⟨h1, h2, h3⟩ := hinv
      cases op with
      | alloc b tag cs t =>
          rw [runOps]
          have hbound1 : s.alloc_ops + 1 + numAllocCalls rest < U64MAX := by
            have hb := hbound
            simp only [numAllocCalls] at hb
            omega
          generalize hgen : (MemoryState.allocate hm s b tag cs t).2 = s2
          obtain ⟨-, -, -, hao, hcase⟩ := allocate_proj hm s b tag cs t s2 hgen
          rw [satAdd_one_eq (by omega)] at hao
          clear hgen
          rcases hcase with ⟨hf, hfr, hlv, hnx, -, -⟩ | ⟨eff, hf, hfr, hnx, hlv, -, -⟩
          · rw [satAdd_one_eq (by omega : s.failed_alloc_count < U64MAX)] at hf
            apply ih
            · refine ⟨?_, ?_, ?_⟩
              · rw [hf, hfr, hlv, hao]; omega
              · rw [hnx, hfr, hlv]; exact h2
              · rw [hlv, hnx]; exact h3
            · rw [hao]; exact hbound1
          · rw [satAdd_one_eq (by omega : s.next_alloc_id < U64MAX)] at hnx
            apply ih
            · have hfresh : ∀ p ∈ s.live, p.1 ≠ s.next_alloc_id := fun p hp =>
                Nat.ne_of_lt (h3 p hp)
              have hlen : (liveInsert s.next_alloc_id
                  ({ bytes := eff, callsite_hash := hm.hashHex cs, tag := tag }) s.live).length
                  = s.live.length + 1 :=
                liveInsert_length_of_not_mem hfresh
              refine ⟨?_, ?_, ?_⟩
              · rw [hf, hfr, hlv, hao, hlen]; omega
              · rw [hnx, hfr, hlv, hlen]; omega
              · intro p hp
                rw [hlv] at hp
                rw [hnx]
                rcases mem_liveInsert hp with rfl | hp'
                · omega
                · have hlt := h3 p hp'
                  omega
            · rw [hao]; exact hbound1
      | free id t =>
          rw [runOps]
          have hbound1 : s.alloc_ops + numAllocCalls rest < U64MAX := by
            have hb := hbound
            simp only [numAllocCalls] at hb
            omega
          generalize hgen : (MemoryState.free s id t).2 = s2
          obtain ⟨-, -, -, hao, hf, hnx, -, hcase⟩ := free_proj s id t s2 hgen
          clear hgen
          rcases hcase with ⟨hfr, hlv, -, -⟩ | ⟨rec, live', hrem, hlv, hfr, -⟩
          · exact ih s2 ⟨by rw [hf, hfr, hlv, hao]; exact h1,
              by rw [hnx, hfr, hlv]; exact h2,
              by rw [hlv, hnx]; exact h3⟩ (by rw [hao]; exact hbound1)
          · obtain ⟨hlen, hsub⟩ := liveRemove_eq_some hrem
            have hLpos : 1 ≤ s.live.length := by omega
            rw [satAdd_one_eq (by omega : s.free_count < U64MAX)] at hfr
            apply ih
            · refine ⟨?_, ?_, ?_⟩
              · rw [hf, hfr, hlv, hao]; omega
              · rw [hnx, hfr, hlv]; omega
              · intro p hp
                rw [hlv] at hp
                rw [hnx]
                exact h3 p (hsub p hp)
            · rw [hao]; exact hbound1
      | checkpoint n t =>
          rw [runOps]
          have hbound1 : s.alloc_ops + numAllocCalls rest < U64MAX := by
            have hb := hbound
            simp only [numAllocCalls] at hb
            omega
          generalize hgen : MemoryState.checkpoint s n t = s2
          obtain ⟨-, -, -, hao, hf, hfr, hlv, hnx, -, -⟩ := checkpoint_proj s n t s2 hgen
          exact ih s2 ⟨by rw [hf, hfr, hlv, hao]; exact h1,
            by rw [hnx, hfr, hlv]; exact h2,
            by rw [hlv, hnx]; exact h3⟩ (by rw [hao]; exact hbound1)

theorem U64MAX_pos : 0 < U64MAX := by decide

theorem satAdd_le_max (a b : Nat) : satAdd a b ≤ U64MAX := min_le_right _ _

theorem one_le_satAdd {a : Nat} (h : 1 ≤ a) : 1 ≤ satAdd a 1 := by
  simp only [satAdd]
  have := U64MAX_pos
  omega

theorem min_satAdd_shift {a k : Nat} (h : a ≤ U64MAX) :
    min (satAdd a 1 + k) U64MAX = min (a + (k + 1)) U64MAX := by
  simp only [satAdd]; omega

/-- When `limit_mb` is unset and `fail_after_allocs = 1`, every allocate
call after the first takes the `fail_after_allocs` failure path. -/
theorem allocate_fail_after_one (hm : HashModel) (s : MemoryState) (b : Nat)
    (tag : Option String) (cs : String) (t : Nat)
    (hlim : s.options.limit_mb = none) (hfa : s.options.fail_after_allocs = some 1)
    (h1 : 1 ≤ s.alloc_ops) :
    (s.allocate hm b tag cs t).2.alloc_ops = satAdd s.alloc_ops 1 ∧
    (s.allocate hm b tag cs t).2.failed_alloc_count = satAdd s.failed_alloc_count 1 ∧
    (s.allocate hm b tag cs t).2.free_count = s.free_count ∧
    (s.allocate hm b tag cs t).2.live = s.live ∧
    (s.allocate hm b tag cs t).2.options = s.options := by
  unfold MemoryState.allocate
  dsimp only
  split
  · rename_i hcond
    rw [hlim] at hcond
    simp at hcond
  · split
    · exact ⟨rfl, rfl, rfl, rfl, rfl⟩
    · rename_i hcond
      rw [hfa] at hcond
      have hge : 1 < satAdd s.alloc_ops 1 := by
        simp only [satAdd]
        have := U64MAX_pos
        have hU : 2 ≤ U64MAX := by decide
        omega
      simp [hge] at hcond

/-- Running `k` further allocates against a state that always takes the
failure path: the two saturating counters advance by `k`, nothing else
moves. -/
theorem runOps_replicate_failing (hm : HashModel) (b : Nat) (tag : Option String)
    (cs : String) (t : Nat) (k : Nat) :
    ∀ s : MemoryState, s.options.limit_mb = none → s.options.fail_after_allocs = some 1 →
      1 ≤ s.alloc_ops → s.alloc_ops ≤ U64MAX → s.failed_alloc_count ≤ U64MAX →
      (runOps hm s (List.replicate k (MemOp.alloc b tag cs t))).alloc_ops
          = min (s.alloc_ops + k) U64MAX ∧
      (runOps hm s (List.replicate k (MemOp.alloc b tag cs t))).failed_alloc_count
          = min (s.failed_alloc_count + k) U64MAX ∧
      (runOps hm s (List.replicate k (MemOp.alloc b tag cs t))).free_count = s.free_count ∧
      (runOps hm s (List.replicate k (MemOp.alloc b tag cs t))).live = s.live := by
  induction k with
  | zero =>
      intro s _ _ _ hle hfle
      exact ⟨by simp only [List.replicate_zero, runOps]; omega,
        by simp only [List.replicate_zero, runOps]; omega,
        by simp only [List.replicate_zero, runOps],
        by simp only [List.replicate_zero, runOps]⟩
  | succ k ih =>
      intro s hlim hfa h1 hle hfle
      simp only [List.replicate, runOps]
      obtain ⟨hao, hf, hfr, hlv, hopt⟩ := allocate_fail_after_one hm s b tag cs t hlim hfa h1
      generalize hgen : (MemoryState.allocate hm s b tag cs t).2 = s2 at hao hf hfr hlv hopt
      obtain ⟨iao, iff', ifr, ilv⟩ := ih s2 (by rw [hopt]; exact hlim) (by rw [hopt]; exact hfa)
        (by rw [hao]; exact one_le_satAdd h1)
        (by rw [hao]; exact satAdd_le_max _ _)
        (by rw [hf]; exact satAdd_le_max _ _)
      refine ⟨?_, ?_, ?_, ?_⟩
      · rw [iao, hao, min_satAdd_shift hle]
      · rw [iff', hf, min_satAdd_shift hfle]
      · rw [ifr, hfr]
      · rw [ilv, hlv]

/-- The summary fields of `finalize` are the state's counters; the leak
count is the live-map size. -/
theorem finalize_summary_fields (s : MemoryState) :
    s.finalize.summary.alloc_count = s.alloc_ops ∧
    s.finalize.summary.failed_alloc_count = s.failed_alloc_count ∧
    s.finalize.summary.free_count = s.free_count ∧
    s.finalize.summary.leaked_allocs = s.live.length := by
  refine ⟨rfl, rfl, rfl, ?_⟩
  show (s.live.map _).length = s.live.length
  exact List.length_map _ _

/-- C2: for every `MemoryRunReport` produced by `MemoryState::finalize`
after any operation sequence, `summary.leaked_allocs` is the length of
`leaks`, `summary.leaked_bytes` is the byte sum over `leaks`, and
`summary.peak_bytes` dominates `summary.in_use_bytes`. -/
theorem memory_finalize_summary_invariants (hm : HashModel) (opts : MemoryOptions)
    (ops : List MemOp) :
    ((runOps hm (MemoryState.new opts) ops).finalize.summary.leaked_allocs
        = (runOps hm (MemoryState.new opts) ops).finalize.leaks.length) ∧
    ((runOps hm (MemoryState.new opts) ops).finalize.summary.leaked_bytes
        = ((runOps hm (MemoryState.new opts) ops).finalize.leaks.map (fun l => l.bytes)).sum) ∧
    ((runOps hm (MemoryState.new opts) ops).finalize.summary.peak_bytes
        ≥ (runOps hm (MemoryState.new opts) ops).finalize.summary.in_use_bytes) := by
  refine ⟨rfl, rfl, ?_⟩
  exact runOps_inuse_le_peak hm ops (MemoryState.new opts) (le_refl 0)

/-- C5: with a non-empty parsed pressure-wave list and no fragmentation
seed, the effective size of an allocate call is the requested bytes times
`wave[(alloc_ops − 1) mod len(wave)]` (where `alloc_ops` has already been
incremented for this call); concretely, with `pressure_wave = "1,2"` three
100-byte requests land as 100, 200, 100 live bytes and peak 400. -/
theorem pressure_wave_effective_bytes :
    (∀ (hm : HashModel) (bytes : Nat) (s : MemoryState),
      s.pressure_wave_multipliers ≠ [] →
      s.options.fragmentation_seed = none →
      s.effective_alloc_bytes hm bytes
        = satMul bytes (s.pressure_wave_multipliers.getD
            ((s.alloc_ops - 1) % s.pressure_wave_multipliers.length) 0)) ∧
    ((runOps idHash (MemoryState.new { pressure_wave := some "1,2" })
        [MemOp.alloc 100 none "hot" 1, MemOp.alloc 100 none "hot" 2,
         MemOp.alloc 100 none "hot" 3]).live.map (fun p => p.2.bytes) = [100, 200, 100] ∧
     (runOps idHash (MemoryState.new { pressure_wave := some "1,2" })
        [MemOp.alloc 100 none "hot" 1, MemOp.alloc 100 none "hot" 2,
         MemOp.alloc 100 none "hot" 3]).finalize.summary.peak_bytes = 400) := by
  refine ⟨?_, by decide, by decide⟩
  intro hm bytes s hw hfs
  unfold MemoryState.effective_alloc_bytes
  rw [if_neg (show ¬ s.options.fragmentation_seed.isSome = true by simp [hfs]),
    if_neg (show ¬ s.pressure_wave_multipliers.isEmpty = true by
      simp [List.isEmpty_iff, hw])]

set_option maxRecDepth 2000 in
/-- C9 fails on the code as stated: a fresh state driven by one
successful allocate and `2^64 − 1` failing allocates saturates
`alloc_count` at `2^64 − 1` while `failed_alloc_count + free_count +
leaked_allocs` reaches `2^64`, so the accounting identity breaks once the
saturating counters clip.  (The counters never consult the hash, so the
arbitrary `idHash` instantiation is representative.) -/
theorem alloc_count_identity_counterexample :
    ¬ ((runOps idHash (MemoryState.new { fail_after_allocs := some 1 })
          (MemOp.alloc 1 none "c" 0 :: List.replicate (2 ^ 64 - 1) (MemOp.alloc 1 none "c" 0))).finalize.summary.alloc_count
        = (runOps idHash (MemoryState.new { fail_after_allocs := some 1 })
            (MemOp.alloc 1 none "c" 0 :: List.replicate (2 ^ 64 - 1) (MemOp.alloc 1 none "c" 0))).finalize.summary.failed_alloc_count
          + (runOps idHash (MemoryState.new { fail_after_allocs := some 1 })
              (MemOp.alloc 1 none "c" 0 :: List.replicate (2 ^ 64 - 1) (MemOp.alloc 1 none "c" 0))).finalize.summary.free_count
          + (runOps idHash (MemoryState.new { fail_after_allocs := some 1 })
              (MemOp.alloc 1 none "c" 0 :: List.replicate (2 ^ 64 - 1) (MemOp.alloc 1 none "c" 0))).finalize.summary.leaked_allocs) := by
  rw [runOps]
  have hops : ((MemoryState.new { fail_after_allocs := some 1 }).allocate idHash 1 none "c" 0).2.alloc_ops = 1 := by decide
  have hfld : ((MemoryState.new { fail_after_allocs := some 1 }).allocate idHash 1 none "c" 0).2.failed_alloc_count = 0 := by decide
  have hfrc : ((MemoryState.new { fail_after_allocs := some 1 }).allocate idHash 1 none "c" 0).2.free_count = 0 := by decide
  have hlvl : ((MemoryState.new { fail_after_allocs := some 1 }).allocate idHash 1 none "c" 0).2.live.length = 1 := by decide
  have hliml : ((MemoryState.new { fail_after_allocs := some 1 }).allocate idHash 1 none "c" 0).2.options.limit_mb = none := by decide
  have hfal : ((MemoryState.new { fail_after_allocs := some 1 }).allocate idHash 1 none "c" 0).2.options.fail_after_allocs = some 1 := by decide
  generalize hgen : ((MemoryState.new { fail_after_allocs := some 1 }).allocate idHash 1 none "c" 0).2 = s1 at hops hfld hfrc hlvl hliml hfal
  obtain ⟨iao, iff', ifr, ilv⟩ := runOps_replicate_failing idHash 1 none "c" 0 (2 ^ 64 - 1) s1
    hliml hfal (by omega) (by rw [hops]; decide) (by rw [hfld]; decide)
  intro hid
  rw [(finalize_summary_fields _).1, (finalize_summary_fields _).2.1,
    (finalize_summary_fields _).2.2.1, (finalize_summary_fields _).2.2.2,
    iao, iff', ifr, ilv, hops, hfld, hfrc, hlvl] at hid
  have hU : U64MAX = 2 ^ 64 - 1 := rfl
  rw [hU] at hid
  omega

/-- C9 (amended): `alloc_count` counts every allocate call, so as long as
a run makes fewer than `2^64 − 1` allocate calls (no saturating counter
clips) the identity `alloc_count = failed_alloc_count + free_count +
leaked_allocs` holds at finalize. -/
theorem alloc_count_identity_of_bounded (hm : HashModel) (opts : MemoryOptions)
    (ops : List MemOp) (hcnt : numAllocCalls ops < U64MAX) :
    (runOps hm (MemoryState.new opts) ops).finalize.summary.alloc_count
      = (runOps hm (MemoryState.new opts) ops).finalize.summary.failed_alloc_count
        + (runOps hm (MemoryState.new opts) ops).finalize.summary.free_count
        + (runOps hm (MemoryState.new opts) ops).finalize.summary.leaked_allocs := by
  obtain ⟨hsum, -, -⟩ := runOps_meminv hm ops (MemoryState.new opts)
    ⟨rfl, rfl, by intro p hp; simp [MemoryState.new] at hp⟩
    (by simpa [MemoryState.new] using hcnt)
  rw [(finalize_summary_fields _).1, (finalize_summary_fields _).2.1,
    (finalize_summary_fields _).2.2.1, (finalize_summary_fields _).2.2.2]
  omega

/-- Witness for the amended C9 at a concrete mixed run: two allocates,
one free, one failing allocate under `fail_after_allocs = 1`. -/
theorem alloc_count_identity_of_bounded_witness :
    (runOps idHash (MemoryState.new { fail_after_allocs := some 1 })
        [MemOp.alloc 8 none "c" 0, MemOp.free 1 1, MemOp.alloc 8 none "c" 2]).finalize.summary.alloc_count
      = (runOps idHash (MemoryState.new { fail_after_allocs := some 1 })
          [MemOp.alloc 8 none "c" 0, MemOp.free 1 1, MemOp.alloc 8 none "c" 2]).finalize.summary.failed_alloc_count
        + (runOps idHash (MemoryState.new { fail_after_allocs := some 1 })
            [MemOp.alloc 8 none "c" 0, MemOp.free 1 1, MemOp.alloc 8 none "c" 2]).finalize.summary.free_count
        + (runOps idHash (MemoryState.new { fail_after_allocs := some 1 })
            [MemOp.alloc 8 none "c" 0, MemOp.free 1 1, MemOp.alloc 8 none "c" 2]).finalize.summary.leaked_allocs :=
  alloc_count_identity_of_bounded idHash { fail_after_allocs := some 1 }
    [MemOp.alloc 8 none "c" 0, MemOp.free 1 1, MemOp.alloc 8 none "c" 2] (by decide)

/-- Witness for C5 discharging its hypotheses at the state reached after
one allocate call with wave `"1,2"`. -/
theorem pressure_wave_effective_bytes_witness :
    (runOps idHash (MemoryState.new { pressure_wave := some "1,2" })
        [MemOp.alloc 100 none "hot" 1]).effective_alloc_bytes idHash 100
      = satMul 100 (((runOps idHash (MemoryState.new { pressure_wave := some "1,2" })
          [MemOp.alloc 100 none "hot" 1]).pressure_wave_multipliers).getD
            (((runOps idHash (MemoryState.new { pressure_wave := some "1,2" })
              [MemOp.alloc 100 none "hot" 1]).alloc_ops - 1) %
              ((runOps idHash (MemoryState.new { pressure_wave := some "1,2" })
                [MemOp.alloc 100 none "hot" 1]).pressure_wave_multipliers).length) 0) :=
  pressure_wave_effective_bytes.1 idHash 100 _ (by decide) (by decide)

theorem buildEvents_length (rid : String) (seed : Nat) :
    ∀ (idx : Nat) (l : List TraceEvent), (buildEvents rid seed idx l).length = l.length := by
  intro idx l
  induction l generalizing idx with
  | nil => rfl
  | cons e rest ih => simp [buildEvents, ih]

theorem buildEvents_get? (rid : String) (seed : Nat) :
    ∀ (l : List TraceEvent) (idx i : Nat),
      (buildEvents rid seed idx l).get? i
        = (l.get? i).map (fun e =>
            mkProfileEvent rid seed (idx + i) e ((l.get? (i + 1)).map (fun n => n.time_ms))) := by
  intro l
  induction l with
  | nil => intro idx i; simp [buildEvents]
  | cons e rest ih =>
      intro idx i
      cases i with
      | zero =>
          cases rest with
          | nil => simp [buildEvents]
          | cons e2 rest2 => simp [buildEvents]
      | succ i =>
          simp only [buildEvents, List.get?_cons_succ]
          rw [ih (idx + 1) i]
          have harith : idx + 1 + i = idx + (i + 1) := by omega
          rw [harith]

/-- C10: the timeline builder is total on arbitrary event lists — `n`
events always yield exactly `n` profile events, and whenever the
successor event's `time_ms` is strictly smaller (the trace violates the
non-decreasing-time invariant), the checked subtraction leaves
`cost.duration_ms` absent instead of wrapping. -/
theorem timeline_total_and_no_underflow (trace : TraceFile) :
    (build_profile_timeline trace).length = trace.events.length ∧
    (∀ (i : Nat) (e e' : TraceEvent),
      trace.events.get? i = some e → trace.events.get? (i + 1) = some e' →
      e'.time_ms < e.time_ms →
      ∃ pe, (build_profile_timeline trace).get? i = some pe ∧
        pe.cost.duration_ms = none) := by
  constructor
  · exact buildEvents_length _ _ 0 _
  · intro i e e' hi hi' hlt
    refine ⟨mkProfileEvent trace.summary.identity.run_id trace.summary.identity.seed
      (0 + i) e ((some e').map (fun n => n.time_ms)), ?_, ?_⟩
    · rw [build_profile_timeline, buildEvents_get?, hi, hi']
      rfl
    · show (if e.time_ms ≤ e'.time_ms then some (e'.time_ms - e.time_ms) else none) = none
      rw [if_neg (by omega)]

/-- Witness for C10 on a trace whose second event happens earlier than
its first. -/
theorem timeline_total_and_no_underflow_witness :
    ∃ pe, (build_profile_timeline traceC10).get? 0 = some pe ∧
      pe.cost.duration_ms = none :=
  (timeline_total_and_no_underflow traceC10).2 0
    { time_ms := 5, name := "late", fields := [] }
    { time_ms := 3, name := "early", fields := [] }
    rfl rfl (by decide)

theorem percentile_halves : percentile [3, 4] ((1 : ℚ) / 2) = 4 := by
  have hfl : (Int.floor (((([3, 4] : List Nat).length : ℚ) - 1) * ((1 : ℚ) / 2)
      + 1 / 2)).toNat = 1 := by
    have he : ((([3, 4] : List Nat).length : ℚ) - 1) * ((1 : ℚ) / 2) + 1 / 2 = 1 := by
      norm_num
    rw [he]
    simp
  simp only [percentile, rustRound]
  rw [if_neg (by decide), hfl]
  decide

theorem percentile_nineteen_twentieths : percentile [3, 4] ((19 : ℚ) / 20) = 4 := by
  have hfl : (Int.floor (((([3, 4] : List Nat).length : ℚ) - 1) * ((19 : ℚ) / 20)
      + 1 / 2)).toNat = 1 := by
    have he : ((([3, 4] : List Nat).length : ℚ) - 1) * ((19 : ℚ) / 20) + 1 / 2
        = 29 / 20 := by norm_num
    rw [he]
    have hf : Int.floor ((29 : ℚ) / 20) = 1 := by
      apply Int.floor_eq_iff.mpr
      constructor <;> norm_num
    rw [hf]
    rfl
  simp only [percentile, rustRound]
  rw [if_neg (by decide), hfl]
  decide

/-- C4: the profile built from events at `t_ms = 1, 4, 8` has delta list
`[3, 4]`, `p50 = p95 = max = 4`, and exactly the two critical-path edges
sorted descending by duration; in general `percentile` takes the nearest
rank at index `round((n − 1)·p)` on the sorted delta list (for
`0 ≤ p ≤ 1` the final clamp to the last index never fires). -/
theorem latency_scenario_and_percentile :
    (latency_deltas (build_profile_timeline traceC4) = [3, 4] ∧
     (build_latency_profile traceC4 (build_profile_timeline traceC4)).distribution.p50_ms = 4 ∧
     (build_latency_profile traceC4 (build_profile_timeline traceC4)).distribution.p95_ms = 4 ∧
     (build_latency_profile traceC4 (build_profile_timeline traceC4)).distribution.max_ms = 4 ∧
     (build_latency_profile traceC4 (build_profile_timeline traceC4)).critical_path
       = [{ from_span := "e-1", to_span := "e-2", duration_ms := 4, reason := "other" },
          { from_span := "e-0", to_span := "e-1", duration_ms := 3, reason := "other" }]) ∧
    (∀ (l : List Nat) (p : ℚ), l ≠ [] → 0 ≤ p → p ≤ 1 →
      percentile l p = l.getD (rustRound (((l.length : ℚ) - 1) * p)) 0) := by
  constructor
  · refine ⟨by decide, ?_, ?_, by decide, by decide⟩
    · show percentile [3, 4] ((1 : ℚ) / 2) = 4
      exact percentile_halves
    · show percentile [3, 4] ((19 : ℚ) / 20) = 4
      exact percentile_nineteen_twentieths
  · intro l p hl hp0 hp1
    unfold percentile
    rw [if_neg (by simpa [List.isEmpty_iff] using hl)]
    have hn : 1 ≤ l.length := List.length_pos.mpr hl
    congr 1
    apply min_eq_left
    have hnn : (0 : ℚ) ≤ (l.length : ℚ) - 1 := by
      have : (1 : ℚ) ≤ (l.length : ℚ) := by exact_mod_cast hn
      linarith
    have hq : ((l.length : ℚ) - 1) * p ≤ (l.length : ℚ) - 1 := by
      nlinarith
    have hflt : Int.floor ((((l.length : ℚ) - 1) * p) + 1 / 2) < (l.length : ℤ) := by
      apply Int.floor_lt.mpr
      push_cast
      linarith
    unfold rustRound
    rw [Int.toNat_le]
    have hcast : ((l.length - 1 : ℕ) : ℤ) = (l.length : ℤ) - 1 := by
      omega
    rw [hcast]
    omega

/-- Witness for C4's general percentile clause at the scenario's own
delta list and `p = 1/2`. -/
theorem latency_scenario_and_percentile_witness :
    percentile [3, 4] ((1 : ℚ) / 2)
      = ([3, 4] : List Nat).getD
          (rustRound (((([3, 4] : List Nat).length : ℚ) - 1) * ((1 : ℚ) / 2))) 0 :=
  latency_scenario_and_percentile.2 [3, 4] ((1 : ℚ) / 2) (by decide)
    (by norm_num) (by norm_num)

theorem specRate_agrees_above_one_second (total last : Nat) (h : 1000 ≤ last) :
    (total : ℚ) / (((max last 1 : Nat) : ℚ) / 1000) = specAllocRate total last := by
  have h1 : (1 : Nat) ≤ last := by omega
  rw [Nat.max_eq_left h1]
  unfold specAllocRate
  rw [max_eq_right]
  rw [le_div_iff (by norm_num : (0 : ℚ) < 1000)]
  have : (1000 : ℚ) ≤ (last : ℚ) := by exact_mod_cast h
  linarith

/-- C6 (amended): the implementation divides by
`(max(last_event_t_ms, 1) as f64) / 1000` — the floor at 1 applies to the
milliseconds before conversion to seconds, not to the seconds; the spec's
`total / max(1, t/1000)` coincides with it exactly when the last event is
at or past one second of virtual time. -/
theorem heap_alloc_rate_formula (trace : TraceFile) :
    ((build_heap_profile trace (build_profile_timeline trace)).alloc_rate_per_sec
      = ((build_heap_profile trace (build_profile_timeline trace)).total_alloc_bytes : ℚ)
        / (((max (((build_profile_timeline trace).getLast?.map
              (fun e => e.t_virtual)).getD 0) 1 : Nat) : ℚ) / 1000)) ∧
    (1000 ≤ (((build_profile_timeline trace).getLast?.map
          (fun e => e.t_virtual)).getD 0) →
      (build_heap_profile trace (build_profile_timeline trace)).alloc_rate_per_sec
        = specAllocRate
            (build_heap_profile trace (build_profile_timeline trace)).total_alloc_bytes
            (((build_profile_timeline trace).getLast?.map
              (fun e => e.t_virtual)).getD 0)) := by
  refine ⟨rfl, fun h => ?_⟩
  exact specRate_agrees_above_one_second _ _ h

/-- Witness for C6's amended agreement clause on the trace whose last
event is at 2000 ms. -/
theorem heap_alloc_rate_formula_witness :
    (build_heap_profile traceC6long (build_profile_timeline traceC6long)).alloc_rate_per_sec
      = specAllocRate
          (build_heap_profile traceC6long (build_profile_timeline traceC6long)).total_alloc_bytes
          (((build_profile_timeline traceC6long).getLast?.map
            (fun e => e.t_virtual)).getD 0) :=
  (heap_alloc_rate_formula traceC6long).2 (by decide)

/-- C6 fails as stated: on a trace whose last event is at `t_ms = 8`
with 100 bytes allocated, the code yields `100 / 0.008 = 12500`
bytes/sec, while the spec's `total / max(1, t/1000)` yields `100`. -/
theorem heap_alloc_rate_counterexample :
    ¬ ((build_heap_profile traceC6 (build_profile_timeline traceC6)).alloc_rate_per_sec
        = specAllocRate
            (build_heap_profile traceC6 (build_profile_timeline traceC6)).total_alloc_bytes
            (((build_profile_timeline traceC6).getLast?.map
              (fun e => e.t_virtual)).getD 0)) := by
  have htot : (build_heap_profile traceC6 (build_profile_timeline traceC6)).total_alloc_bytes
      = 100 := by decide
  have hlast : (((build_profile_timeline traceC6).getLast?.map
      (fun e => e.t_virtual)).getD 0) = 8 := by decide
  have hr : (build_heap_profile traceC6 (build_profile_timeline traceC6)).alloc_rate_per_sec
      = ((100 : Nat) : ℚ) / (((8 : Nat) : ℚ) / 1000) := rfl
  intro heq
  rw [hr, htot, hlast] at heq
  unfold specAllocRate at heq
  rw [max_eq_left (by push_cast; norm_num : ((8 : Nat) : ℚ) / 1000 ≤ 1)] at heq
  push_cast at heq
  norm_num at heq

/-! ### Sorting commutes with a comparator-preserving map -/

theorem insertLe_map_comm (f : α → α) (le : α → α → Bool)
    (hle : ∀ a b, le (f a) (f b) = le a b) (x : α) :
    ∀ l : List α, insertLe le (f x) (l.map f) = (insertLe le x l).map f := by
  intro l
  induction l with
  | nil => rfl
  | cons y ys ih =>
      simp only [List.map_cons, insertLe, hle]
      by_cases h : le x y = true
      · simp [h]
      · simp only [Bool.not_eq_true] at h
        simp [h, ih]

theorem sortLe_map_comm (f : α → α) (le : α → α → Bool)
    (hle : ∀ a b, le (f a) (f b) = le a b) :
    ∀ l : List α, sortLe le (l.map f) = (sortLe le l).map f := by
  intro l
  induction l with
  | nil => rfl
  | cons y ys ih => simp only [List.map_cons, sortLe, ih, insertLe_map_comm f le hle]

theorem domainPairs_swap (d : String) (l r : ProfileMetrics) :
    domainPairs d r l = (domainPairs d l r).map (fun t => (t.1, t.2.2, t.2.1)) := by
  unfold domainPairs
  split_ifs <;> rfl

theorem mkFinding_swap (d m : String) (lv rv : ℚ) :
    mkFinding d m rv lv = negSwapFinding (mkFinding d m lv rv) := by
  unfold mkFinding negSwapFinding
  simp [neg_sub]

theorem regLe_negSwap (a b : RegressionFinding) :
    regLe (negSwapFinding a) (negSwapFinding b) = regLe a b := by
  simp [regLe, negSwapFinding, abs_neg]

theorem diffRaw_swap (l r : ProfileMetrics) :
    ∀ (ds : List String) (acc : List RegressionFinding),
      ds.foldl (fun acc domain =>
        acc ++ (domainPairs domain r l).map (fun t => mkFinding domain t.1 t.2.1 t.2.2))
        (acc.map negSwapFinding)
      = (ds.foldl (fun acc domain =>
          acc ++ (domainPairs domain l r).map (fun t => mkFinding domain t.1 t.2.1 t.2.2))
          acc).map negSwapFinding := by
  intro ds
  induction ds with
  | nil => intro acc; rfl
  | cons d rest ih =>
      intro acc
      simp only [List.foldl_cons]
      rw [← ih (acc ++ (domainPairs d l r).map (fun t => mkFinding d t.1 t.2.1 t.2.2))]
      congr 1
      rw [List.map_append]
      congr 1
      rw [domainPairs_swap, List.map_map, List.map_map]
      apply List.map_congr_left
      intro t _
      exact mkFinding_swap d t.1 t.2.1 t.2.2

/-- C7: the i-th regression of `diff(A,B)` and of `diff(B,A)` concern the
same metric and carry exactly opposite deltas — the reversed diff's
regression list is the image of the original's under side-swapping, and
the stable sort commutes with that image because the comparator only
reads `|delta|` and the metric name. -/
theorem diff_delta_antisymmetry (A B : ProfileMetrics) (la lb ra rb : String)
    (domains : List String) (i : Nat) (x : RegressionFinding)
    (hx : (compute_diff la lb domains A B).regressions.get? i = some x) :
    ∃ y, (compute_diff ra rb domains B A).regressions.get? i = some y ∧
      y.metric = x.metric ∧ y.delta = -x.delta := by
  have hmap : (compute_diff ra rb domains B A).regressions
      = ((compute_diff la lb domains A B).regressions).map negSwapFinding := by
    show sortLe regLe (diffRegressionsRaw domains B A)
      = (sortLe regLe (diffRegressionsRaw domains A B)).map negSwapFinding
    have hraw : diffRegressionsRaw domains B A
        = (diffRegressionsRaw domains A B).map negSwapFinding := by
      have := diffRaw_swap A B domains []
      simpa [diffRegressionsRaw] using this
    rw [hraw, sortLe_map_comm negSwapFinding regLe regLe_negSwap]
  refine ⟨negSwapFinding x, ?_, rfl, rfl⟩
  rw [hmap, List.get?_map, hx]
  rfl

/-- Witness for C7 on two concrete metrics documents over the `cpu`
domain. -/
theorem diff_delta_antisymmetry_witness :
    ∃ y, (compute_diff "b" "a" ["cpu"] sampleMetricsB sampleMetricsA).regressions.get? 0
        = some y ∧
      y.metric = (mkFinding "cpu" "cpu_time_ms" ((sampleMetricsA.cpu_time_ms : ℚ))
        ((sampleMetricsB.cpu_time_ms : ℚ))).metric ∧
      y.delta = -(mkFinding "cpu" "cpu_time_ms" ((sampleMetricsA.cpu_time_ms : ℚ))
        ((sampleMetricsB.cpu_time_ms : ℚ))).delta :=
  diff_delta_antisymmetry sampleMetricsA sampleMetricsB "a" "b" "b" "a" ["cpu"] 0
    (mkFinding "cpu" "cpu_time_ms" ((sampleMetricsA.cpu_time_ms : ℚ))
      ((sampleMetricsB.cpu_time_ms : ℚ))) rfl

/-- C8: the shrink decision is total over resolved traces and produces a
structured document: the contract is preserved iff (increase ⇒ after ≥
baseline) and (decrease ⇒ after ≤ baseline); the status is `"ok"` when
preserved and `"no_feasible_shrink_found"` otherwise; the document always
carries the baseline and after metric values. -/
theorem shrink_contract_document (metric : ProfileMetric) (direction : ProfileDirection)
    (input shrunk : TraceFile) :
    ((shrinkOutcome metric direction input shrunk).preserved = true ↔
      ((direction = ProfileDirection.increase →
          metric_value metric shrunk ≥ metric_value metric input) ∧
       (direction = ProfileDirection.decrease →
          metric_value metric shrunk ≤ metric_value metric input))) ∧
    ((shrinkOutcome metric direction input shrunk).status
        = if (shrinkOutcome metric direction input shrunk).preserved
          then "ok" else "no_feasible_shrink_found") ∧
    (shrinkOutcome metric direction input shrunk).baseline = metric_value metric input ∧
    (shrinkOutcome metric direction input shrunk).after = metric_value metric shrunk := by
  have hnorm : ∀ v : ℚ, normalize_metric_value v = v := by
    intro v
    unfold normalize_metric_value
    split
    · rename_i h; exact h.symm
    · rfl
  cases direction with
  | increase =>
      refine ⟨?_, rfl, hnorm _, hnorm _⟩
      simp [shrinkOutcome, shrinkDoc, decide_eq_true_iff]
  | decrease =>
      refine ⟨?_, rfl, hnorm _, hnorm _⟩
      simp [shrinkOutcome, shrinkDoc, decide_eq_true_iff]

/-- Witness for C8: shrinking a trace with 100 allocated bytes to an
events-free trace under `alloc_bytes`/`increase` misses the contract and
yields the structured no-feasible-shrink document. -/
theorem shrink_contract_document_witness :
    (shrinkOutcome ProfileMetric.allocBytes ProfileDirection.increase traceC6
        traceEmpty).status = "no_feasible_shrink_found" ∧
    (shrinkOutcome ProfileMetric.allocBytes ProfileDirection.increase traceC6
        traceEmpty).baseline = metric_value ProfileMetric.allocBytes traceC6 ∧
    (shrinkOutcome ProfileMetric.allocBytes ProfileDirection.increase traceC6
        traceEmpty).after = metric_value ProfileMetric.allocBytes traceEmpty := by
  have h := shrink_contract_document ProfileMetric.allocBytes ProfileDirection.increase
    traceC6 traceEmpty
  refine ⟨?_, h.2.2.1, h.2.2.2⟩
  rw [h.2.1]
  have hp : (shrinkOutcome ProfileMetric.allocBytes ProfileDirection.increase traceC6
      traceEmpty).preserved = false := by decide
  rw [hp]
  rfl

/-! ### Codec round-trip lemmas -/

@[simp]
theorem decStr_str (s : String) : decStr (some (Json.str s)) = some s := rfl

@[simp]
theorem decNat_num (n : Nat) : decNat (some (Json.num n)) = some n := by
  simp [decNat]

@[simp]
theorem decInt_num (i : Int) : decInt (some (Json.num i)) = some i := by
  simp [decInt]

@[simp]
theorem decOptStr_enc (o : Option String) : decOptStr (some (encOptStr o)) = some o := by
  cases o <;> rfl

@[simp]
theorem decOptNat_enc (o : Option Nat) : decOptNat (some (encOptNat o)) = some o := by
  cases o with
  | none => rfl
  | some n => simp [decOptNat, encOptNat]

@[simp]
theorem decOptBool_enc (o : Option Bool) : decOptBool (some (encOptBool o)) = some o := by
  cases o <;> rfl

@[simp]
theorem decFields_obj (fs : List (String × Json)) :
    decFields (some (Json.obj fs)) = some fs := rfl

theorem decList_map {α : Type} (dec : Json → Option α) (enc : α → Json)
    (h : ∀ a, dec (enc a) = some a) :
    ∀ l : List α, decList dec (some (Json.arr (l.map enc))) = some l := by
  have hgo : ∀ l : List α, decList.go dec (l.map enc) = some l := by
    intro l
    induction l with
    | nil => rfl
    | cons a rest ih => simp [decList.go, h, ih]
  intro l
  simp [decList, hgo]

theorem decOptWith_enc {α : Type} (dec : Json → Option α) (enc : α → Json)
    (h : ∀ a, dec (enc a) = some a) (hnn : ∀ a, (enc a).isNull = false) :
    ∀ o : Option α, decOptWith dec (some (encOptWith enc o)) = some o := by
  intro o
  cases o with
  | none => rfl
  | some a => simp [decOptWith, encOptWith, hnn, h]

theorem decodeVersionInfo_enc (v : VersionInfo) :
    decodeVersionInfo (encodeVersionInfo v) = some v := by
  obtain ⟨ver, commit⟩ := v
  simp [encodeVersionInfo, decodeVersionInfo, getField]

theorem decodeRunMode_enc (m : RunMode) : decodeRunMode (encodeRunMode m) = some m := by
  cases m <;> rfl

theorem decodeExitStatus_enc (s : ExitStatus) :
    decodeExitStatus (encodeExitStatus s) = some s := by
  cases s <;> rfl

theorem decodeRunIdentity_enc (x : RunIdentity) :
    decodeRunIdentity (encodeRunIdentity x) = some x := by
  obtain ⟨a, b, c, d, e⟩ := x
  simp [encodeRunIdentity, decodeRunIdentity, getField]

theorem decodeTestCounters_enc (x : TestCounters) :
    decodeTestCounters (encodeTestCounters x) = some x := by
  obtain ⟨a, b, c⟩ := x
  simp [encodeTestCounters, decodeTestCounters, getField]

theorem decodeFinding_enc (x : Finding) : decodeFinding (encodeFinding x) = some x := by
  obtain ⟨a, b, c⟩ := x
  simp [encodeFinding, decodeFinding, getField]

theorem decodeMemorySummary_enc (x : MemorySummary) :
    decodeMemorySummary (encodeMemorySummary x) = some x := by
  obtain ⟨a, b, c, d, e, f, g⟩ := x
  simp [encodeMemorySummary, decodeMemorySummary, getField]

theorem decodeRunSummary_enc (x : RunSummary) :
    decodeRunSummary (encodeRunSummary x) = some x := by
  obtain ⟨st, mo, idn, sa, fa, dms, dns, tests, memory, findings⟩ := x
  simp [encodeRunSummary, decodeRunSummary, getField,
    decodeExitStatus_enc, decodeRunMode_enc, decodeRunIdentity_enc,
    decOptWith_enc decodeTestCounters encodeTestCounters decodeTestCounters_enc
      (fun a => rfl),
    decOptWith_enc decodeMemorySummary encodeMemorySummary decodeMemorySummary_enc
      (fun a => rfl),
    decList_map decodeFinding encodeFinding decodeFinding_enc]

theorem decodeDecision_enc (d : Decision) : decodeDecision (encodeDecision d) = some d := by
  cases d <;> simp [encodeDecision, decodeDecision, getField]

theorem decodeStep_enc (s : Step) : decodeStep (encodeStep s) = some s := by
  cases s <;> simp [encodeStep, decodeStep, getField]

theorem decodeScenarioV1Steps_enc (x : ScenarioV1Steps) :
    decodeScenarioV1Steps (encodeScenarioV1Steps x) = some x := by
  obtain ⟨v, n, s⟩ := x
  simp [encodeScenarioV1Steps, decodeScenarioV1Steps, getField,
    decList_map decodeStep encodeStep decodeStep_enc]

theorem decodeTraceEvent_enc (x : TraceEvent) :
    decodeTraceEvent (encodeTraceEvent x) = some x := by
  obtain ⟨t, n, f⟩ := x
  simp [encodeTraceEvent, decodeTraceEvent, getField]

theorem decodeMemoryOptions_enc (x : MemoryOptions) :
    decodeMemoryOptions (encodeMemoryOptions x) = some x := by
  obtain ⟨a, b, c, d⟩ := x
  simp [encodeMemoryOptions, decodeMemoryOptions, getField]

theorem decodeMemoryLeak_enc (x : MemoryLeak) :
    decodeMemoryLeak (encodeMemoryLeak x) = some x := by
  obtain ⟨a, b, c, d⟩ := x
  simp [encodeMemoryLeak, decodeMemoryLeak, getField]

theorem decodeMemoryTimelineEntry_enc (x : MemoryTimelineEntry) :
    decodeMemoryTimelineEntry (encodeMemoryTimelineEntry x) = some x := by
  obtain ⟨a, b, c, d⟩ := x
  simp [encodeMemoryTimelineEntry, decodeMemoryTimelineEntry, getField]

theorem decodeMemoryGraphNode_enc (x : MemoryGraphNode) :
    decodeMemoryGraphNode (encodeMemoryGraphNode x) = some x := by
  obtain ⟨a, b, c⟩ := x
  simp [encodeMemoryGraphNode, decodeMemoryGraphNode, getField]

theorem decodeMemoryGraphEdge_enc (x : MemoryGraphEdge) :
    decodeMemoryGraphEdge (encodeMemoryGraphEdge x) = some x := by
  obtain ⟨a, b, c⟩ := x
  simp [encodeMemoryGraphEdge, decodeMemoryGraphEdge, getField]

theorem decodeMemoryGraph_enc (x : MemoryGraph) :
    decodeMemoryGraph (encodeMemoryGraph x) = some x := by
  obtain ⟨n, e⟩ := x
  simp [encodeMemoryGraph, decodeMemoryGraph, getField,
    decList_map decodeMemoryGraphNode encodeMemoryGraphNode decodeMemoryGraphNode_enc,
    decList_map decodeMemoryGraphEdge encodeMemoryGraphEdge decodeMemoryGraphEdge_enc]

theorem decodeMemoryRunReport_enc (x : MemoryRunReport) :
    decodeMemoryRunReport (encodeMemoryRunReport x) = some x := by
  obtain ⟨sv, o, s, l, t, g⟩ := x
  simp [encodeMemoryRunReport, decodeMemoryRunReport, getField,
    decodeMemoryOptions_enc, decodeMemorySummary_enc, decodeMemoryGraph_enc,
    decList_map decodeMemoryLeak encodeMemoryLeak decodeMemoryLeak_enc,
    decList_map decodeMemoryTimelineEntry encodeMemoryTimelineEntry
      decodeMemoryTimelineEntry_enc]

theorem decodeTraceFile_enc (t : TraceFile) :
    decodeTraceFile (encodeTraceFile t) = some t := by
  obtain ⟨fm, v, e, m, sp, sc, mem, d, ev, su⟩ := t
  simp [encodeTraceFile, decodeTraceFile, getField,
    decodeVersionInfo_enc, decodeRunMode_enc, decodeRunSummary_enc,
    decOptWith_enc decodeScenarioV1Steps encodeScenarioV1Steps decodeScenarioV1Steps_enc
      (fun a => rfl),
    decOptWith_enc decodeMemoryRunReport encodeMemoryRunReport decodeMemoryRunReport_enc
      (fun a => rfl),
    decList_map decodeDecision encodeDecision decodeDecision_enc,
    decList_map decodeTraceEvent encodeTraceEvent decodeTraceEvent_enc]

/-- C3: writing any `TraceFile` and reading it back returns the same
`TraceFile` (round-trip identity through the canonical serialization). -/
theorem trace_write_read_roundtrip (t : TraceFile) :
    TraceFile.read_json (TraceFile.write_json t) = some t :=
  decodeTraceFile_enc t

/-- C1 fails as stated: `read_json` deserializes with no version check,
so a complete trace document whose `version` field is `2 > 1` is read
successfully instead of producing a *Trace* schema error.  (Compare
`src/src/scenario.rs`, which does reject `version != 1` for scenarios.) -/
theorem trace_version_accepted_counterexample :
    TraceFile.read_json docVersion2 = some traceVersion2 ∧ traceVersion2.version = 2 :=
  ⟨rfl, rfl⟩

/-- C1 (amended): `read_json` performs no version validation at all — a
document deserializes by field types alone, so replacing the `version`
value of any readable trace with any unsigned integer still reads
successfully, returning a `TraceFile` with that version. -/
theorem trace_read_ignores_version (t : TraceFile) (v : Nat) :
    TraceFile.read_json (TraceFile.write_json { t with version := v })
      = some { t with version := v } :=
  decodeTraceFile_enc { t with version := v }

end Fozzy
